import Mathlib

/-!
Shallow embedding of the quran-studio reverb core
(`src/Reverb/Shared/DSP/FDNReverb.cpp`, `src/Reverb/Shared/DSP/ReverbEngine.cpp`,
`src/Reverb/Audio/DSP/ParameterSmoothing.hpp`) over exact rational arithmetic.

Modelling conventions, chosen once for the whole file:

* 32-bit `float` values are modelled as `ℚ`.  Claims are about the algebraic
  data flow (which value is copied, scaled or zeroed), not about rounding.
* A delay-line buffer (96 000 zero-initialised floats in the source) is
  represented sparsely as an association list of the cells actually written,
  together with the write cursor; an unwritten cell reads as `0`, exactly as
  the freshly allocated or cleared C++ buffer does.
* The source computes `10^x`, `cos`, `sin` (RT60 gain, biquad design) through
  `std::pow` / trigonometry; these transcendental evaluations have no exact
  rational value, so they enter the model as explicit function parameters
  (`powf`, a `(cos, sin)` oracle `trig`).  Every claim either quantifies over
  them or instantiates them with a concrete dummy, and no claim depends on a
  particular transcendental value.
* `generateHouseholderMatrix` draws its reflection vector from a seeded
  `std::mt19937` + `std::normal_distribution` and then normalises it; the
  distribution is implementation-defined and the normalisation involves a
  square root, so the model takes the already-normalised reflection vector
  `vH` as a parameter (unit-norm where a claim needs it).
* The engine constructs the FDN with `MAX_DELAY_LINES = 8` delay lines
  (`FDNReverb` clamps the requested count into `[4,12]`, and `max 4 (min 8 12)
  = 8`), so vectors and the feedback matrix are indexed by `Fin 8`.
* The CPU-usage meter (`cpuUsage_`, wall-clock timing) and the per-block
  scratch vectors (`tempBuffers_`, `wetBuffer_`, `dryBuffer_`, dead between
  blocks) are not part of the modelled state.
-/

namespace VoiceMonitor

/-- `std::clamp(v, lo, hi)` / the engine's `clamp(value, min, max)`:
`std::max(min, std::min(max, value))`. -/
def clampQ (v lo hi : ℚ) : ℚ := max lo (min hi v)

/-! ## DelayLine (`FDNReverb.cpp` lines 48–91)

`buffer_` is a `maxLength`-element float array, all zeros at construction;
`writes` records the cells written since the last `clear`, newest first. -/

structure DelayLine where
  writes : List (ℕ × ℚ)
  writeIndex : ℕ
  delay : ℚ
  maxLength : ℕ
  deriving Repr, DecidableEq

namespace DelayLine

/-- `DelayLine::DelayLine(int maxLength)`. -/
def init (maxLength : ℕ) : DelayLine :=
  { writes := [], writeIndex := 0, delay := 0, maxLength := maxLength }

/-- Read the buffer cell `i`: the most recent write to `i`, else the zero the
allocation/`clear` left there. -/
def bufRead (writes : List (ℕ × ℚ)) (i : ℕ) : ℚ :=
  match writes with
  | [] => 0
  | (j, x) :: rest => if j = i then x else bufRead rest i

/-- `DelayLine::setDelay`: clamp into `[1, maxLength − 1]`. -/
def setDelay (dl : DelayLine) (delaySamples : ℚ) : DelayLine :=
  { dl with delay := max 1 (min delaySamples ((dl.maxLength : ℚ) - 1)) }

/-- `DelayLine::process(float input)`: write, interpolated read, advance.
The `static_cast<int>` truncation equals `Int.floor` on the non-negative
read positions that arise (`writeIndex ∈ [0, maxLength)`,
`delay ∈ [0, maxLength − 1]`). -/
def process (dl : DelayLine) (input : ℚ) : DelayLine × ℚ :=
  let writes1 := (dl.writeIndex, input) :: dl.writes
  let readPos0 : ℚ := (dl.writeIndex : ℚ) - dl.delay
  let readPos : ℚ := if readPos0 < 0 then readPos0 + (dl.maxLength : ℚ) else readPos0
  let readIndex : ℕ := (Int.floor readPos).toNat
  let fraction : ℚ := readPos - (readIndex : ℚ)
  let readIndex2 : ℕ := (readIndex + 1) % dl.maxLength
  let sample1 := bufRead writes1 readIndex
  let sample2 := bufRead writes1 readIndex2
  let output := sample1 + fraction * (sample2 - sample1)
  ({ dl with writes := writes1, writeIndex := (dl.writeIndex + 1) % dl.maxLength },
   output)

/-- `DelayLine::clear`: zero the buffer, reset the cursor (delay kept). -/
def clear (dl : DelayLine) : DelayLine :=
  { dl with writes := [], writeIndex := 0 }

/-- The sample state is zero: every written cell holds `0` and the cursor is
at the origin — observationally identical to a freshly cleared line. -/
def isCleared (dl : DelayLine) : Prop :=
  (∀ p ∈ dl.writes, p.2 = 0) ∧ dl.writeIndex = 0

instance (dl : DelayLine) : Decidable dl.isCleared := by
  unfold isCleared; infer_instance

end DelayLine

/-! ## AllPassFilter (`FDNReverb.cpp` lines 93–123) -/

structure AllPassFilter where
  delay : DelayLine
  gain : ℚ
  lastOutput : ℚ
  deriving Repr, DecidableEq

namespace AllPassFilter

/-- `AllPassFilter::AllPassFilter(int delayLength, float gain)`. -/
def init (delayLength : ℕ) (gain : ℚ) : AllPassFilter :=
  { delay := DelayLine.init delayLength, gain := gain, lastOutput := 0 }

/-- `AllPassFilter::process`. -/
def process (ap : AllPassFilter) (input : ℚ) : AllPassFilter × ℚ :=
  let (d1, delayedSignal) := ap.delay.process 0
  let output := -ap.gain * input + delayedSignal + ap.gain * ap.lastOutput
  let feedbackSignal := input + ap.gain * output
  let (d2, _) := d1.process feedbackSignal
  ({ delay := d2, gain := ap.gain, lastOutput := output }, output)

/-- `AllPassFilter::clear`. -/
def clear (ap : AllPassFilter) : AllPassFilter :=
  { ap with delay := ap.delay.clear, lastOutput := 0 }

/-- `setGain` (inline in `FDNReverb.hpp`). -/
def setGain (ap : AllPassFilter) (g : ℚ) : AllPassFilter :=
  { ap with gain := g }

def isCleared (ap : AllPassFilter) : Prop :=
  ap.delay.isCleared ∧ ap.lastOutput = 0

instance (ap : AllPassFilter) : Decidable ap.isCleared := by
  unfold isCleared; infer_instance

end AllPassFilter

/-- Serial all-pass chain: `for (auto& filter : filters) x = filter->process(x);`
returning the updated filters and the final sample. -/
def processChain : List AllPassFilter → ℚ → List AllPassFilter × ℚ
  | [], x => ([], x)
  | f :: fs, x =>
    let (f', y) := f.process x
    let (fs', z) := processChain fs y
    (f' :: fs', z)

/-! ## BiquadFilter (`FDNReverb.hpp` lines 64–86, Direct Form I) -/

structure BiquadFilter where
  b0 : ℚ
  b1 : ℚ
  b2 : ℚ
  a1 : ℚ
  a2 : ℚ
  x1 : ℚ
  x2 : ℚ
  y1 : ℚ
  y2 : ℚ
  deriving Repr, DecidableEq

namespace BiquadFilter

/-- `BiquadFilter()` default constructor: identity coefficients, zero state. -/
def init : BiquadFilter :=
  { b0 := 1, b1 := 0, b2 := 0, a1 := 0, a2 := 0, x1 := 0, x2 := 0, y1 := 0, y2 := 0 }

/-- `BiquadFilter::process`. -/
def process (f : BiquadFilter) (input : ℚ) : BiquadFilter × ℚ :=
  let output := f.b0 * input + f.b1 * f.x1 + f.b2 * f.x2 - f.a1 * f.y1 - f.a2 * f.y2
  ({ f with x2 := f.x1, x1 := input, y2 := f.y1, y1 := output }, output)

/-- `BiquadFilter::clear`: zero the sample state, keep coefficients. -/
def clear (f : BiquadFilter) : BiquadFilter :=
  { f with x1 := 0, x2 := 0, y1 := 0, y2 := 0 }

/-- Sample state (not coefficients) is zero. -/
def isCleared (f : BiquadFilter) : Prop :=
  f.x1 = 0 ∧ f.x2 = 0 ∧ f.y1 = 0 ∧ f.y2 = 0

instance (f : BiquadFilter) : Decidable f.isCleared := by
  unfold isCleared; infer_instance

end BiquadFilter

/-- A `(cos ω, sin ω)` oracle for the bilinear-transform biquad designs.  The
source evaluates `cos`/`sin` at `ω = 2π·cutoff/sampleRate`; the model passes
the ratio `cutoff / sampleRate` to the oracle, which stands for
`(cos (2π·r), sin (2π·r))`.  No claim depends on the trigonometric values. -/
abbrev TrigOracle := ℚ → ℚ × ℚ

/-- Butterworth Q factor used throughout the source (`0.7071f`). -/
def butterworthQ : ℚ := 7071 / 10000

/-- `DampingFilter::calculateLowpassCoeffs` (`FDNReverb.cpp` lines 177–207):
damping `≤ 0` forces the identity biquad; otherwise a Butterworth lowpass with
the feed-forward coefficients scaled by `1 − 0.8·(percent/100)`.
Coefficient assignment preserves the filter's sample state, as in C++. -/
def calculateLowpassCoeffs (trig : TrigOracle) (f : BiquadFilter)
    (cutoffHz dampingPercent sampleRate : ℚ) : BiquadFilter :=
  if dampingPercent ≤ 0 then
    { f with b0 := 1, b1 := 0, b2 := 0, a1 := 0, a2 := 0 }
  else
    let cs := trig (cutoffHz / sampleRate)
    let cosOmega := cs.1
    let sinOmega := cs.2
    let alpha := sinOmega / (2 * butterworthQ)
    let dampingFactor := 1 - (dampingPercent / 100) * (8 / 10)
    let a0 := 1 + alpha
    { f with
      b0 := ((1 - cosOmega) / 2) / a0 * dampingFactor
      b1 := (1 - cosOmega) / a0 * dampingFactor
      b2 := ((1 - cosOmega) / 2) / a0 * dampingFactor
      a1 := (-2 * cosOmega) / a0
      a2 := (1 - alpha) / a0 }

/-- `DampingFilter::calculateHighpassCoeffs` (`FDNReverb.cpp` lines 209–239):
identity when damping `≤ 0`, else Butterworth highpass with feed-forward
scaling `1 − 0.6·(percent/100)`. -/
def calculateHighpassCoeffs (trig : TrigOracle) (f : BiquadFilter)
    (cutoffHz dampingPercent sampleRate : ℚ) : BiquadFilter :=
  if dampingPercent ≤ 0 then
    { f with b0 := 1, b1 := 0, b2 := 0, a1 := 0, a2 := 0 }
  else
    let cs := trig (cutoffHz / sampleRate)
    let cosOmega := cs.1
    let sinOmega := cs.2
    let alpha := sinOmega / (2 * butterworthQ)
    let dampingFactor := 1 - (dampingPercent / 100) * (6 / 10)
    let a0 := 1 + alpha
    { f with
      b0 := ((1 + cosOmega) / 2) / a0 * dampingFactor
      b1 := (-(1 + cosOmega)) / a0 * dampingFactor
      b2 := ((1 + cosOmega) / 2) / a0 * dampingFactor
      a1 := (-2 * cosOmega) / a0
      a2 := (1 - alpha) / a0 }

/-! ## DampingFilter (`FDNReverb.cpp` lines 125–175): HF lowpass then LF
highpass biquad in series. -/

structure DampingFilter where
  hfFilter : BiquadFilter
  lfFilter : BiquadFilter
  sampleRate : ℚ
  hfCutoffHz : ℚ
  lfCutoffHz : ℚ
  hfDampingPercent : ℚ
  lfDampingPercent : ℚ
  deriving Repr, DecidableEq

namespace DampingFilter

/-- `DampingFilter::setHFDamping`. -/
def setHFDamping (trig : TrigOracle) (df : DampingFilter)
    (dampingPercent cutoffHz : ℚ) : DampingFilter :=
  let p := clampQ dampingPercent 0 100
  let c := clampQ cutoffHz 1000 12000
  { df with hfDampingPercent := p, hfCutoffHz := c
            hfFilter := calculateLowpassCoeffs trig df.hfFilter c p df.sampleRate }

/-- `DampingFilter::setLFDamping`. -/
def setLFDamping (trig : TrigOracle) (df : DampingFilter)
    (dampingPercent cutoffHz : ℚ) : DampingFilter :=
  let p := clampQ dampingPercent 0 100
  let c := clampQ cutoffHz 50 500
  { df with lfDampingPercent := p, lfCutoffHz := c
            lfFilter := calculateHighpassCoeffs trig df.lfFilter c p df.sampleRate }

/-- `DampingFilter::DampingFilter(double sampleRate)`: neutral settings. -/
def init (trig : TrigOracle) (sampleRate : ℚ) : DampingFilter :=
  let base : DampingFilter :=
    { hfFilter := BiquadFilter.init, lfFilter := BiquadFilter.init
      sampleRate := sampleRate, hfCutoffHz := 8000, lfCutoffHz := 200
      hfDampingPercent := 0, lfDampingPercent := 0 }
  setLFDamping trig (setHFDamping trig base 0 8000) 0 200

/-- `DampingFilter::process`: HF lowpass first, then LF highpass. -/
def process (df : DampingFilter) (input : ℚ) : DampingFilter × ℚ :=
  let (hf', hfFiltered) := df.hfFilter.process input
  let (lf', output) := df.lfFilter.process hfFiltered
  ({ df with hfFilter := hf', lfFilter := lf' }, output)

/-- `DampingFilter::clear`. -/
def clear (df : DampingFilter) : DampingFilter :=
  { df with hfFilter := df.hfFilter.clear, lfFilter := df.lfFilter.clear }

def isCleared (df : DampingFilter) : Prop :=
  df.hfFilter.isCleared ∧ df.lfFilter.isCleared

instance (df : DampingFilter) : Decidable df.isCleared := by
  unfold isCleared; infer_instance

end DampingFilter

/-! ## ModulatedDelay (`FDNReverb.cpp` lines 241–282).  Its `process` (an
LFO-modulated delay) is never invoked by the block-processing paths the claims
concern; only construction and `clear` are modelled. -/

structure ModulatedDelay where
  delay : DelayLine
  baseDelay : ℚ
  modDepth : ℚ
  modRate : ℚ
  modPhase : ℚ
  sampleRate : ℚ
  deriving Repr, DecidableEq

namespace ModulatedDelay

/-- `ModulatedDelay::ModulatedDelay(int maxLength)`. -/
def init (maxLength : ℕ) : ModulatedDelay :=
  { delay := DelayLine.init maxLength, baseDelay := 0, modDepth := 0
    modRate := 0, modPhase := 0, sampleRate := 44100 }

/-- `ModulatedDelay::clear`. -/
def clear (md : ModulatedDelay) : ModulatedDelay :=
  { md with delay := md.delay.clear, modPhase := 0 }

def isCleared (md : ModulatedDelay) : Prop :=
  md.delay.isCleared ∧ md.modPhase = 0

instance (md : ModulatedDelay) : Decidable md.isCleared := by
  unfold isCleared; infer_instance

end ModulatedDelay

/-! ## FDN-internal CrossFeedProcessor (`FDNReverb.cpp` lines 852–978) -/

structure CrossFeedProcessor where
  crossDelayL : DelayLine
  crossDelayR : DelayLine
  crossFeedAmount : ℚ
  crossDelayMs : ℚ
  stereoWidth : ℚ
  phaseInvert : Bool
  bypass : Bool
  sampleRate : ℚ
  deriving Repr, DecidableEq

namespace CrossFeedProcessor

/-- `CrossFeedProcessor::updateDelayLengths`. -/
def updateDelayLengths (cf : CrossFeedProcessor) : CrossFeedProcessor :=
  let delaySamples := (cf.crossDelayMs / 1000) * cf.sampleRate
  { cf with crossDelayL := cf.crossDelayL.setDelay delaySamples
            crossDelayR := cf.crossDelayR.setDelay delaySamples }

/-- `CrossFeedProcessor::CrossFeedProcessor(double sampleRate)`:
defaults 50 % amount, 10 ms delay, width 1, enabled; delay lines sized for
50 ms (`static_cast<int>(sampleRate * 0.05)`). -/
def init (sampleRate : ℚ) : CrossFeedProcessor :=
  let maxDelaySamples := (Int.floor (sampleRate * (5 / 100))).toNat
  updateDelayLengths
    { crossDelayL := DelayLine.init maxDelaySamples
      crossDelayR := DelayLine.init maxDelaySamples
      crossFeedAmount := 1 / 2, crossDelayMs := 10, stereoWidth := 1
      phaseInvert := false, bypass := false, sampleRate := sampleRate }

/-- One sample of the bypassed path: Mid/Side width only. -/
def bypassSample (width l r : ℚ) : ℚ × ℚ :=
  let mid := (l + r) * (1 / 2)
  let side := (l - r) * (1 / 2) * width
  (mid + side, mid - side)

/-- One sample of the active cross-feed path (`processStereo` loop body). -/
def crossSample (cf : CrossFeedProcessor) (inputL inputR : ℚ) :
    CrossFeedProcessor × ℚ × ℚ :=
  let (dl1, delayedL) := cf.crossDelayL.process 0
  let (dr1, delayedR) := cf.crossDelayR.process 0
  let crossFeedLtoR := delayedL * cf.crossFeedAmount
  let crossFeedRtoL0 := delayedR * cf.crossFeedAmount
  let crossFeedRtoL := if cf.phaseInvert then -crossFeedRtoL0 else crossFeedRtoL0
  let mixedL := inputL + crossFeedRtoL
  let mixedR := inputR + crossFeedLtoR
  let mid := (mixedL + mixedR) * (1 / 2)
  let side := (mixedL - mixedR) * (1 / 2) * cf.stereoWidth
  let (dl2, _) := dl1.process inputL
  let (dr2, _) := dr1.process inputR
  ({ cf with crossDelayL := dl2, crossDelayR := dr2 }, mid + side, mid - side)

/-- `CrossFeedProcessor::processStereo` over a block of (L, R) samples. -/
def processStereo (cf : CrossFeedProcessor) (samples : List (ℚ × ℚ)) :
    CrossFeedProcessor × List (ℚ × ℚ) :=
  if cf.bypass then
    (cf, samples.map fun s => bypassSample cf.stereoWidth s.1 s.2)
  else
    let step := fun (acc : CrossFeedProcessor × List (ℚ × ℚ)) (s : ℚ × ℚ) =>
      let (cf', l, r) := crossSample acc.1 s.1 s.2
      (cf', acc.2 ++ [(l, r)])
    samples.foldl step (cf, [])

/-- `CrossFeedProcessor::clear`. -/
def clear (cf : CrossFeedProcessor) : CrossFeedProcessor :=
  { cf with crossDelayL := cf.crossDelayL.clear, crossDelayR := cf.crossDelayR.clear }

end CrossFeedProcessor

/-! ## StereoSpreadProcessor (`FDNReverb.cpp` lines 980–1057) -/

structure StereoSpreadProcessor where
  stereoWidth : ℚ
  compensateGain : Bool
  deriving Repr, DecidableEq

namespace StereoSpreadProcessor

/-- `StereoSpreadProcessor::StereoSpreadProcessor()`. -/
def init : StereoSpreadProcessor := { stereoWidth := 1, compensateGain := true }

/-- `calculateMidGainCompensation`. -/
def calculateMidGainCompensation (width : ℚ) : ℚ :=
  if width ≤ 0 then 1
  else if width ≤ 1 then 1
  else max (1 - (width - 1) * (15 / 100)) (7 / 10)

/-- One sample of `StereoSpreadProcessor::processStereo` (stateless M/S). -/
def spreadSample (sp : StereoSpreadProcessor) (l r : ℚ) : ℚ × ℚ :=
  let mid := (l + r) * (1 / 2)
  let side := (l - r) * (1 / 2)
  let scaledSide := side * sp.stereoWidth
  let midGain := if sp.compensateGain then calculateMidGainCompensation sp.stereoWidth else 1
  let compensatedMid := mid * midGain
  (compensatedMid + scaledSide, compensatedMid - scaledSide)

/-- `StereoSpreadProcessor::processStereo` over a block. -/
def processStereo (sp : StereoSpreadProcessor) (samples : List (ℚ × ℚ)) :
    List (ℚ × ℚ) :=
  samples.map fun s => spreadSample sp s.1 s.2

end StereoSpreadProcessor

/-! ## ToneFilter (`FDNReverb.cpp` lines 1478–1610) -/

/-- `ToneFilter::calculateLowpassCoeffs` (no damping scaling). -/
def toneLowpassCoeffs (trig : TrigOracle) (f : BiquadFilter)
    (cutoffHz sampleRate : ℚ) : BiquadFilter :=
  let cs := trig (cutoffHz / sampleRate)
  let cosOmega := cs.1
  let sinOmega := cs.2
  let alpha := sinOmega / (2 * butterworthQ)
  let a0 := 1 + alpha
  { f with
    b0 := ((1 - cosOmega) / 2) / a0
    b1 := (1 - cosOmega) / a0
    b2 := ((1 - cosOmega) / 2) / a0
    a1 := (-2 * cosOmega) / a0
    a2 := (1 - alpha) / a0 }

/-- `ToneFilter::calculateHighpassCoeffs`. -/
def toneHighpassCoeffs (trig : TrigOracle) (f : BiquadFilter)
    (cutoffHz sampleRate : ℚ) : BiquadFilter :=
  let cs := trig (cutoffHz / sampleRate)
  let cosOmega := cs.1
  let sinOmega := cs.2
  let alpha := sinOmega / (2 * butterworthQ)
  let a0 := 1 + alpha
  { f with
    b0 := ((1 + cosOmega) / 2) / a0
    b1 := (-(1 + cosOmega)) / a0
    b2 := ((1 + cosOmega) / 2) / a0
    a1 := (-2 * cosOmega) / a0
    a2 := (1 - alpha) / a0 }

structure ToneFilter where
  highCutL : BiquadFilter
  highCutR : BiquadFilter
  lowCutL : BiquadFilter
  lowCutR : BiquadFilter
  sampleRate : ℚ
  highCutFreq : ℚ
  lowCutFreq : ℚ
  highCutEnabled : Bool
  lowCutEnabled : Bool
  deriving Repr, DecidableEq

namespace ToneFilter

/-- `ToneFilter::setHighCutFreq`. -/
def setHighCutFreq (trig : TrigOracle) (tf : ToneFilter) (freqHz : ℚ) : ToneFilter :=
  let c := clampQ freqHz 1000 20000
  { tf with highCutFreq := c
            highCutL := toneLowpassCoeffs trig tf.highCutL c tf.sampleRate
            highCutR := toneLowpassCoeffs trig tf.highCutR c tf.sampleRate }

/-- `ToneFilter::setLowCutFreq`. -/
def setLowCutFreq (trig : TrigOracle) (tf : ToneFilter) (freqHz : ℚ) : ToneFilter :=
  let c := clampQ freqHz 20 1000
  { tf with lowCutFreq := c
            lowCutL := toneHighpassCoeffs trig tf.lowCutL c tf.sampleRate
            lowCutR := toneHighpassCoeffs trig tf.lowCutR c tf.sampleRate }

/-- `ToneFilter::ToneFilter(double sampleRate)`: both filters disabled, then
both cutoffs pushed through the setters. -/
def init (trig : TrigOracle) (sampleRate : ℚ) : ToneFilter :=
  let base : ToneFilter :=
    { highCutL := BiquadFilter.init, highCutR := BiquadFilter.init
      lowCutL := BiquadFilter.init, lowCutR := BiquadFilter.init
      sampleRate := sampleRate, highCutFreq := 20000, lowCutFreq := 20
      highCutEnabled := false, lowCutEnabled := false }
  setLowCutFreq trig (setHighCutFreq trig base 20000) 20

/-- One sample of `ToneFilter::processStereo`. -/
def toneSample (tf : ToneFilter) (l r : ℚ) : ToneFilter × ℚ × ℚ :=
  let s1 :=
    if tf.highCutEnabled then
      let (hL, l') := tf.highCutL.process l
      let (hR, r') := tf.highCutR.process r
      ({ tf with highCutL := hL, highCutR := hR }, l', r')
    else (tf, l, r)
  let (tf1, l1, r1) := s1
  if tf1.lowCutEnabled then
    let (lL, l2) := tf1.lowCutL.process l1
    let (lR, r2) := tf1.lowCutR.process r1
    ({ tf1 with lowCutL := lL, lowCutR := lR }, l2, r2)
  else (tf1, l1, r1)

/-- `ToneFilter::processStereo` over a block. -/
def processStereo (tf : ToneFilter) (samples : List (ℚ × ℚ)) :
    ToneFilter × List (ℚ × ℚ) :=
  let step := fun (acc : ToneFilter × List (ℚ × ℚ)) (s : ℚ × ℚ) =>
    let (tf', l, r) := toneSample acc.1 s.1 s.2
    (tf', acc.2 ++ [(l, r)])
  samples.foldl step (tf, [])

/-- `ToneFilter::clear`. -/
def clear (tf : ToneFilter) : ToneFilter :=
  { tf with highCutL := tf.highCutL.clear, highCutR := tf.highCutR.clear
            lowCutL := tf.lowCutL.clear, lowCutR := tf.lowCutR.clear }

end ToneFilter

/-! ## FDN constants and derived quantities (`FDNReverb.cpp` lines 9–46,
491–642, 1256–1304) -/

/-- `FDNReverb::MAX_DELAY_LENGTH`. -/
def MAX_DELAY_LENGTH : ℕ := 96000

/-- `FDNReverb::PRIME_DELAYS` (20 entries). -/
def PRIME_DELAYS : List ℚ :=
  [1447, 1549, 1693, 1789, 1907, 2063, 2179, 2311, 2467, 2633,
   2801, 2969, 3137, 3307, 3491, 3677, 3863, 4051, 4241, 4801]

/-- `FDNReverb::EARLY_REFLECTION_DELAYS` (8 entries). -/
def EARLY_REFLECTION_DELAYS : List ℚ :=
  [241, 317, 431, 563, 701, 857, 997, 1151]

/-- Diffusion all-pass lengths (`diffusionPrimes`, constructor line 307). -/
def diffusionPrimes : List ℕ := [89, 109, 127, 149, 167, 191, 211, 233]

/-- The clamped float delay for FDN line `i` before the integer cast
(shared by `calculateDelayLengths` and `calculateAverageDelayTime`). -/
def scaledPrimeDelay (sampleRate roomSize : ℚ) (i : ℕ) : ℚ :=
  let sampleRateScale := sampleRate / 48000
  let roomScale := 1 / 2 + roomSize * (3 / 2)
  let primeIndex := min i (PRIME_DELAYS.length - 1)
  clampQ (PRIME_DELAYS.getD primeIndex 0 * sampleRateScale * roomScale)
    200 ((MAX_DELAY_LENGTH : ℚ) - 1)

/-- `(i % 3) - 1` variation added to every line but the first
(`calculateDelayLengths` lines 514–518). -/
def lineVariation (i : ℕ) : ℤ := if i > 0 then (i : ℤ) % 3 - 1 else 0

/-- `calculateDelayLengths`: integer delay length of FDN line `i`
(`static_cast<int>` truncation of a value in `[200, 95999]` is `Int.floor`). -/
def delayLengthAt (sampleRate roomSize : ℚ) (i : ℕ) : ℤ :=
  Int.floor (scaledPrimeDelay sampleRate roomSize i) + lineVariation i

/-- `calculateAverageDelayTime`: float average over the 8 lines, clamping and
variation applied in float (no integer cast, unlike `calculateDelayLengths`). -/
def averageDelayTime (sampleRate roomSize : ℚ) : ℚ :=
  (((List.range 8).map fun i =>
      scaledPrimeDelay sampleRate roomSize i + (lineVariation i : ℚ)).sum) / 8

/-- `calculateMaxDecayForSize` (lines 1281–1304). -/
def calculateMaxDecayForSize (roomSize : ℚ) : ℚ :=
  if roomSize ≤ 3 / 10 then 8
  else if roomSize ≤ 7 / 10 then
    8 - ((roomSize - 3 / 10) / (4 / 10)) * 2
  else
    6 - ((roomSize - 7 / 10) / (3 / 10)) * 3

/-- The scalar gain computed by `setupFeedbackMatrix` (lines 528–561), with
`std::pow(10, x)` supplied by `powf`. -/
def setupFinalGain (powf : ℚ → ℚ → ℚ)
    (sampleRate decayTime roomSize hfDamping lfDamping : ℚ) : ℚ :=
  let avg := averageDelayTime sampleRate roomSize
  let maxDecayForSize := calculateMaxDecayForSize roomSize
  let limitedDecayTime := min decayTime maxDecayForSize
  let deltaT := avg / sampleRate
  let rt60 := max limitedDecayTime (5 / 100)
  let theoreticalGain := powf 10 (-3 * deltaT / rt60)
  let hfDecayFactor := 1 - hfDamping * (25 / 100)
  let lfDecayFactor := 1 - lfDamping * (15 / 100)
  let freqWeightedGain := theoreticalGain * hfDecayFactor * lfDecayFactor
  let stabilityLimit : ℚ := 97 / 100
  let sizeStabilityFactor := 98 / 100 - roomSize * (3 / 100)
  let stabilityLimit2 := min stabilityLimit sizeStabilityFactor
  min freqWeightedGain stabilityLimit2

/-- `generateHouseholderMatrix` entry `H[i][j] = δ_ij − 2·v[i]·v[j]` for the
normalised reflection vector `v`. -/
def householderEntry (v : Fin 8 → ℚ) (i j : Fin 8) : ℚ :=
  (if i = j then 1 else 0) - 2 * v i * v j

/-- `processMatrix` arithmetic: `matrixOutputs[i] = Σ_j M[i][j]·s[j]`. -/
def matVec (M : Fin 8 → Fin 8 → ℚ) (s : Fin 8 → ℚ) (i : Fin 8) : ℚ :=
  ∑ j, M i j * s j

/-- `setupFeedbackMatrix` result: the Householder matrix scaled by the final
gain. -/
def computeFeedbackMatrix (powf : ℚ → ℚ → ℚ) (vH : Fin 8 → ℚ)
    (sampleRate decayTime roomSize hfDamping lfDamping : ℚ)
    (i j : Fin 8) : ℚ :=
  setupFinalGain powf sampleRate decayTime roomSize hfDamping lfDamping *
    householderEntry vH i j

/-! ## FDNReverb state (`FDNReverb.hpp` lines 289–331) -/

structure FDNReverb where
  delayLines : Fin 8 → DelayLine
  diffusionFilters : List AllPassFilter
  dampingFilters : Fin 8 → DampingFilter
  modulatedDelays : Fin 8 → ModulatedDelay
  crossFeedProcessor : CrossFeedProcessor
  stereoSpreadProcessor : StereoSpreadProcessor
  toneFilter : ToneFilter
  earlyReflectionFilters : List AllPassFilter
  sampleRate : ℚ
  useInterpolation : Bool
  lastRoomSize : ℚ
  needsBufferFlush : Bool
  decayTime : ℚ
  preDelay : ℚ
  roomSize : ℚ
  density : ℚ
  highFreqDamping : ℚ
  lowFreqDamping : ℚ
  feedbackMatrix : Fin 8 → Fin 8 → ℚ
  delayOutputs : Fin 8 → ℚ
  matrixOutputs : Fin 8 → ℚ
  preDelayLine : DelayLine

namespace FDNReverb

/-- `ROOM_SIZE_CHANGE_THRESHOLD`. -/
def roomSizeChangeThreshold : ℚ := 5 / 100

/-- `setupDelayLengths`: push the computed integer lengths into the lines. -/
def setupDelayLengths (fdn : FDNReverb) : FDNReverb :=
  { fdn with delayLines := fun j =>
      (fdn.delayLines j).setDelay ((delayLengthAt fdn.sampleRate fdn.roomSize j : ℤ) : ℚ) }

/-- `setupFeedbackMatrix` as a state transformer (the Householder generation
and scaling; the `printf` diagnostics have no state effect). -/
def setupFeedbackMatrix (powf : ℚ → ℚ → ℚ) (vH : Fin 8 → ℚ)
    (fdn : FDNReverb) : FDNReverb :=
  { fdn with feedbackMatrix :=
               computeFeedbackMatrix powf vH fdn.sampleRate fdn.decayTime
                 fdn.roomSize fdn.highFreqDamping fdn.lowFreqDamping }

/-- `setupEarlyReflections` (lines 1154–1174): four fresh all-pass stages with
room-scaled, clamped prime lengths and gains `0.75 − 0.05·i`. -/
def setupEarlyReflections (fdn : FDNReverb) : FDNReverb :=
  { fdn with earlyReflectionFilters :=
      (List.range 4).map fun i =>
        let sampleRateScale := fdn.sampleRate / 48000
        let roomScale := 3 / 10 + fdn.roomSize * (7 / 10)
        let scaled : ℤ :=
          Int.floor (EARLY_REFLECTION_DELAYS.getD i 0 * sampleRateScale * roomScale)
        let len : ℤ := max 10 (min scaled 2400)
        AllPassFilter.init len.toNat (3 / 4 - (i : ℚ) * (5 / 100)) }

/-- `FDNReverb::FDNReverb(double sampleRate, int numDelayLines)` with the
engine's `numDelayLines = MAX_DELAY_LINES = 8`. -/
def init (powf : ℚ → ℚ → ℚ) (vH : Fin 8 → ℚ) (trig : TrigOracle)
    (sampleRate : ℚ) : FDNReverb :=
  let base : FDNReverb :=
    { delayLines := fun _ => DelayLine.init MAX_DELAY_LENGTH
      diffusionFilters :=
        (List.range 8).map fun i =>
          AllPassFilter.init (diffusionPrimes.getD i 0) (7 / 10 - (i : ℚ) * (3 / 100))
      dampingFilters := fun _ => DampingFilter.init trig sampleRate
      modulatedDelays := fun _ => ModulatedDelay.init (MAX_DELAY_LENGTH / 4)
      crossFeedProcessor := CrossFeedProcessor.init sampleRate
      stereoSpreadProcessor := StereoSpreadProcessor.init
      toneFilter := ToneFilter.init trig sampleRate
      earlyReflectionFilters := []
      sampleRate := sampleRate
      useInterpolation := true
      lastRoomSize := 1 / 2
      needsBufferFlush := false
      decayTime := 2
      preDelay := 0
      roomSize := 1 / 2
      density := 7 / 10
      highFreqDamping := 3 / 10
      lowFreqDamping := 2 / 10
      feedbackMatrix := fun _ _ => 0
      delayOutputs := fun _ => 0
      matrixOutputs := fun _ => 0
      preDelayLine := DelayLine.init (Int.floor (sampleRate * (2 / 10))).toNat }
  setupEarlyReflections (setupFeedbackMatrix powf vH (setupDelayLengths base))

/-- `FDNReverb::flushAllBuffers` (lines 1205–1254). -/
def flushAllBuffers (fdn : FDNReverb) : FDNReverb :=
  { fdn with
    delayLines := fun j => (fdn.delayLines j).clear
    diffusionFilters := fdn.diffusionFilters.map AllPassFilter.clear
    earlyReflectionFilters := fdn.earlyReflectionFilters.map AllPassFilter.clear
    dampingFilters := fun j => (fdn.dampingFilters j).clear
    modulatedDelays := fun j => (fdn.modulatedDelays j).clear
    preDelayLine := fdn.preDelayLine.clear
    crossFeedProcessor := fdn.crossFeedProcessor.clear
    toneFilter := fdn.toneFilter.clear
    delayOutputs := fun _ => 0
    matrixOutputs := fun _ => 0 }

/-- `FDNReverb::checkAndFlushBuffers` (lines 1186–1203): runs at the head of
`processMono` / `processStereo`, before any sample is touched. -/
def checkAndFlushBuffers (fdn : FDNReverb) : FDNReverb :=
  let sizeDelta := |fdn.roomSize - fdn.lastRoomSize|
  let fdn1 :=
    if sizeDelta > roomSizeChangeThreshold then
      { fdn with needsBufferFlush := true, lastRoomSize := fdn.roomSize }
    else fdn
  if fdn1.needsBufferFlush then
    { fdn1.flushAllBuffers with needsBufferFlush := false }
  else fdn1

/-- `FDNReverb::setDecayTime`. -/
def setDecayTime (powf : ℚ → ℚ → ℚ) (vH : Fin 8 → ℚ)
    (fdn : FDNReverb) (decayTimeSeconds : ℚ) : FDNReverb :=
  setupFeedbackMatrix powf vH
    { fdn with decayTime := max (1 / 10) (min decayTimeSeconds 10) }

/-- `FDNReverb::setPreDelay` (argument already in samples). -/
def setPreDelay (fdn : FDNReverb) (preDelaySamples : ℚ) : FDNReverb :=
  let p := max 0 (min preDelaySamples (fdn.sampleRate * (2 / 10)))
  { fdn with preDelay := p, preDelayLine := fdn.preDelayLine.setDelay p }

/-- `FDNReverb::setRoomSize` (lines 655–669). -/
def setRoomSize (fdn : FDNReverb) (size : ℚ) : FDNReverb :=
  let newSize := clampQ size 0 1
  let fdn1 :=
    if |newSize - fdn.roomSize| > roomSizeChangeThreshold then
      { fdn with needsBufferFlush := true }
    else fdn
  setupEarlyReflections (setupDelayLengths { fdn1 with roomSize := newSize })

/-- `FDNReverb::setDensity` (lines 671–678): every diffusion stage's gain is
overwritten with `0.5 + density·0.3`. -/
def setDensity (fdn : FDNReverb) (density : ℚ) : FDNReverb :=
  let d := max 0 (min density 1)
  { fdn with density := d
             diffusionFilters := fdn.diffusionFilters.map fun f =>
               f.setGain (1 / 2 + d * (3 / 10)) }

/-- `FDNReverb::setHighFreqDamping` (lines 680–693).  Note the cutoff uses the
raw argument, the stored percentage the clamped one, as in the source. -/
def setHighFreqDamping (trig : TrigOracle) (fdn : FDNReverb)
    (damping : ℚ) : FDNReverb :=
  let d := clampQ damping 0 1
  let cutoffHz := 12000 - damping * 11000
  { fdn with highFreqDamping := d
             dampingFilters := fun j =>
               (fdn.dampingFilters j).setHFDamping trig (d * 100) cutoffHz }

/-- `FDNReverb::setLowFreqDamping` (lines 695–708). -/
def setLowFreqDamping (trig : TrigOracle) (fdn : FDNReverb)
    (damping : ℚ) : FDNReverb :=
  let d := clampQ damping 0 1
  let cutoffHz := 50 + damping * 450
  { fdn with lowFreqDamping := d
             dampingFilters := fun j =>
               (fdn.dampingFilters j).setLFDamping trig (d * 100) cutoffHz }

/-- `FDNReverb::clear` (lines 794–825). -/
def clear (fdn : FDNReverb) : FDNReverb :=
  { fdn with
    delayLines := fun j => (fdn.delayLines j).clear
    diffusionFilters := fdn.diffusionFilters.map AllPassFilter.clear
    dampingFilters := fun j => (fdn.dampingFilters j).clear
    modulatedDelays := fun j => (fdn.modulatedDelays j).clear
    earlyReflectionFilters := fdn.earlyReflectionFilters.map AllPassFilter.clear
    toneFilter := fdn.toneFilter.clear
    preDelayLine := fdn.preDelayLine.clear
    delayOutputs := fun _ => 0
    matrixOutputs := fun _ => 0 }

/-- `FDNReverb::reset`. -/
def reset (powf : ℚ → ℚ → ℚ) (vH : Fin 8 → ℚ) (fdn : FDNReverb) : FDNReverb :=
  setupFeedbackMatrix powf vH (setupDelayLengths fdn.clear)

/-- The damped return signal of line `j` for the current sample: the damping
filter applied to the feedback-matrix output (identical in `processMono`,
`processStereo` and `generateImpulseResponse`). -/
def dampedSignal (fdn : FDNReverb) (m : Fin 8 → ℚ) (j : Fin 8) : ℚ :=
  ((fdn.dampingFilters j).process (m j)).2

/-- The common front half of one FDN sample: pre-delay, early reflections,
diffusion, the two-phase read of all delay lines (`process(0)`), and the
feedback matrix.  Returns the updated components, the diffused input, the
delay-line snapshot `s`, and the matrix outputs `m`. -/
def frontHalf (fdn : FDNReverb) (input : ℚ) :
    FDNReverb × ℚ × (Fin 8 → ℚ) × (Fin 8 → ℚ) :=
  let (pd1, preDelayedInput) := fdn.preDelayLine.process input
  let (er1, earlyReflected) := processChain fdn.earlyReflectionFilters preDelayedInput
  let (diff1, diffusedInput) := processChain fdn.diffusionFilters earlyReflected
  let s : Fin 8 → ℚ := fun j => ((fdn.delayLines j).process 0).2
  let lines1 : Fin 8 → DelayLine := fun j => ((fdn.delayLines j).process 0).1
  let m : Fin 8 → ℚ := matVec fdn.feedbackMatrix s
  ({ fdn with preDelayLine := pd1, earlyReflectionFilters := er1
              diffusionFilters := diff1, delayLines := lines1
              delayOutputs := s, matrixOutputs := m },
   diffusedInput, s, m)

/-- Loop body of the mono damping/injection/mix loop (`processMono`
lines 376–388): damp line `j`, inject `diffused·0.3 + damped`, accumulate. -/
def monoLineStep (diffused : ℚ) (m : Fin 8 → ℚ)
    (acc : FDNReverb × ℚ) (j : Fin 8) : FDNReverb × ℚ :=
  let fdn := acc.1
  let damped := dampedSignal fdn m j
  let damp1 := ((fdn.dampingFilters j).process (m j)).1
  let delayInput := diffused * (3 / 10) + damped
  let line1 := ((fdn.delayLines j).process delayInput).1
  ({ fdn with dampingFilters := Function.update fdn.dampingFilters j damp1
              delayLines := Function.update fdn.delayLines j line1 },
   acc.2 + damped)

/-- One sample of `FDNReverb::processMono` (lines 354–391). -/
def monoStep (fdn : FDNReverb) (input : ℚ) : FDNReverb × ℚ :=
  let fh := frontHalf fdn input
  let final := (List.finRange 8).foldl (monoLineStep fh.2.1 fh.2.2.2) (fh.1, 0)
  (final.1, final.2 * (3 / 10))

/-- `FDNReverb::processMono` over a block: flush check first, then the
per-sample loop. -/
def processMonoBlock (fdn : FDNReverb) (inputs : List ℚ) :
    FDNReverb × List ℚ :=
  let start := fdn.checkAndFlushBuffers
  inputs.foldl
    (fun acc x =>
      let (f1, y) := monoStep acc.1 x
      (f1, acc.2 ++ [y]))
    (start, [])

/-- Loop body of the stereo damping/injection/mix loop (`processStereo`
lines 444–460): injection coefficient `0.2`, per-line channel weights
`0.7 / 0.3` (even lines emphasise left). -/
def stereoLineStep (diffused : ℚ) (m : Fin 8 → ℚ)
    (acc : FDNReverb × ℚ × ℚ) (j : Fin 8) : FDNReverb × ℚ × ℚ :=
  let fdn := acc.1
  let damped := dampedSignal fdn m j
  let damp1 := ((fdn.dampingFilters j).process (m j)).1
  let delayInput := diffused * (2 / 10) + damped
  let line1 := ((fdn.delayLines j).process delayInput).1
  let leftGain : ℚ := if (j : ℕ) % 2 = 0 then 7 / 10 else 3 / 10
  let rightGain : ℚ := if (j : ℕ) % 2 = 0 then 3 / 10 else 7 / 10
  ({ fdn with dampingFilters := Function.update fdn.dampingFilters j damp1
              delayLines := Function.update fdn.delayLines j line1 },
   acc.2.1 + damped * leftGain, acc.2.2 + damped * rightGain)

/-- One sample of the `processStereo` FDN loop (STEP 2, lines 414–466): both
wet outputs are the accumulated weighted sums scaled by `reverbGain = 0.3`.
Only the cross-fed left sample feeds the network (`inputRightChan` is read
but unused in the source loop). -/
def stereoStep (fdn : FDNReverb) (inputL _inputR : ℚ) : FDNReverb × ℚ × ℚ :=
  let fh := frontHalf fdn inputL
  let final := (List.finRange 8).foldl (stereoLineStep fh.2.1 fh.2.2.2) (fh.1, 0, 0)
  let reverbGain : ℚ := 3 / 10
  (final.1, final.2.1 * reverbGain, final.2.2 * reverbGain)

/-- `FDNReverb::processStereo` (lines 394–479): flush check, cross-feed on the
inputs, the per-sample FDN loop, then stereo spread and tone filtering on the
wet bus. -/
def processStereoBlock (fdn : FDNReverb) (inputs : List (ℚ × ℚ)) :
    FDNReverb × List (ℚ × ℚ) :=
  let start := fdn.checkAndFlushBuffers
  let (cf1, crossFed) := start.crossFeedProcessor.processStereo inputs
  let start1 := { start with crossFeedProcessor := cf1 }
  let loop :=
    crossFed.foldl
      (fun (acc : FDNReverb × List (ℚ × ℚ)) s =>
        let (f1, l, r) := stereoStep acc.1 s.1 s.2
        (f1, acc.2 ++ [(l, r)]))
      (start1, [])
  let spread := loop.1.stereoSpreadProcessor.processStereo loop.2
  let (tone1, toned) := loop.1.toneFilter.processStereo spread
  ({ loop.1 with toneFilter := tone1 }, toned)

/-- All the sample state named by the flush contract: delay lines, diffusion
and early-reflection all-passes, damping filters, modulated delays, the
pre-delay line, and the snapshot vectors. -/
def buffersCleared (fdn : FDNReverb) : Prop :=
  (∀ j : Fin 8, (fdn.delayLines j).isCleared) ∧
  (∀ f ∈ fdn.diffusionFilters, f.isCleared) ∧
  (∀ f ∈ fdn.earlyReflectionFilters, f.isCleared) ∧
  (∀ j : Fin 8, (fdn.dampingFilters j).isCleared) ∧
  (∀ j : Fin 8, (fdn.modulatedDelays j).isCleared) ∧
  fdn.preDelayLine.isCleared ∧
  (∀ j : Fin 8, fdn.delayOutputs j = 0) ∧
  (∀ j : Fin 8, fdn.matrixOutputs j = 0)

end FDNReverb

/-! ## ReverbEngine (`ReverbEngine.cpp`, constants from `ReverbEngine.hpp`) -/

/-- `ReverbEngine::MIN_SAMPLE_RATE`. -/
def MIN_SAMPLE_RATE : ℚ := 44100

/-- `ReverbEngine::MAX_SAMPLE_RATE`. -/
def MAX_SAMPLE_RATE : ℚ := 96000

/-- `ReverbEngine::MAX_CHANNELS`. -/
def MAX_CHANNELS : ℕ := 2

/-- `ReverbEngine::Preset`. -/
inductive Preset where
  | Clean
  | VocalBooth
  | Studio
  | Cathedral
  | Custom
  deriving Repr, DecidableEq

/-- `ReverbEngine::Parameters`: one atomic cell per parameter.  The numeric
defaults follow the `Parameters` struct of `ReverbEngine.hpp`; for the three
cells that only appear in `ReverbEngine.cpp` setters (`lowFreqDamping`,
`stereoWidth`, `phaseInvert` — the matching header revision is not in the
sources) the defaults are modelled from the spec's parameter table
(20 %, 1.0, false).  No claim depends on any default. -/
structure Parameters where
  wetDryMix : ℚ := 35
  decayTime : ℚ := 2
  preDelay : ℚ := 75
  crossFeed : ℚ := 1 / 2
  roomSize : ℚ := 82 / 100
  density : ℚ := 70
  highFreqDamping : ℚ := 50
  lowFreqDamping : ℚ := 20
  stereoWidth : ℚ := 1
  phaseInvert : Bool := false
  bypass : Bool := false
  deriving Repr, DecidableEq

/-- `ReverbEngine::applyPresetParameters` (lines 197–248). -/
def applyPresetParameters (preset : Preset) (p : Parameters) : Parameters :=
  match preset with
  | Preset.Clean =>
    { p with wetDryMix := 0, decayTime := 1 / 10, preDelay := 0, crossFeed := 0
             roomSize := 0, density := 0, highFreqDamping := 0, bypass := true }
  | Preset.VocalBooth =>
    { p with wetDryMix := 18, decayTime := 9 / 10, preDelay := 8, crossFeed := 3 / 10
             roomSize := 35 / 100, density := 70, highFreqDamping := 30, bypass := false }
  | Preset.Studio =>
    { p with wetDryMix := 40, decayTime := 17 / 10, preDelay := 15, crossFeed := 1 / 2
             roomSize := 6 / 10, density := 85, highFreqDamping := 45, bypass := false }
  | Preset.Cathedral =>
    { p with wetDryMix := 65, decayTime := 28 / 10, preDelay := 25, crossFeed := 7 / 10
             roomSize := 85 / 100, density := 60, highFreqDamping := 60, bypass := false }
  | Preset.Custom =>
    { p with bypass := false }

/-- `ReverbEngine` state.  The CPU meter and per-block scratch vectors are
omitted (see the module comment); the `StereoEnhancer` member is kept
abstract (see `processBlock`). -/
structure ReverbEngine where
  currentPreset : Preset
  sampleRate : ℚ
  maxBlockSize : ℤ
  initialized : Bool
  params : Parameters
  fdn : FDNReverb

namespace ReverbEngine

/-- `ReverbEngine::ReverbEngine()` fresh (uninitialised) engine; the FDN
member is a null `unique_ptr` until `initialize`, modelled by a placeholder
built with the same construction and never observed before `initialize`. -/
def mkFresh (powf : ℚ → ℚ → ℚ) (vH : Fin 8 → ℚ) (trig : TrigOracle) : ReverbEngine :=
  { currentPreset := Preset.Clean, sampleRate := 44100, maxBlockSize := 512
    initialized := false, params := {}
    fdn := FDNReverb.init powf vH trig 44100 }

/-- `ReverbEngine::setPreset`. -/
def setPreset (e : ReverbEngine) (preset : Preset) : ReverbEngine :=
  { e with currentPreset := preset
           params := applyPresetParameters preset e.params }

/-- `ReverbEngine::initialize` (lines 58–85): the only validation is the
sample-rate range check; on failure the engine is returned untouched. -/
def initEngine (powf : ℚ → ℚ → ℚ) (vH : Fin 8 → ℚ) (trig : TrigOracle)
    (e : ReverbEngine) (sampleRate : ℚ) (maxBlockSize : ℤ) :
    Bool × ReverbEngine :=
  if sampleRate < MIN_SAMPLE_RATE ∨ sampleRate > MAX_SAMPLE_RATE then
    (false, e)
  else
    let e1 := { e with sampleRate := sampleRate, maxBlockSize := maxBlockSize
                       fdn := FDNReverb.init powf vH trig sampleRate }
    let e2 := e1.setPreset Preset.VocalBooth
    (true, { e2 with initialized := true })

/-- The parameter push at the top of a non-bypassed `processBlock`
(lines 110–123): read the cells, push them into the FDN in source order. -/
def pushParams (powf : ℚ → ℚ → ℚ) (vH : Fin 8 → ℚ) (trig : TrigOracle)
    (e : ReverbEngine) : FDNReverb :=
  let fdn1 := FDNReverb.setDecayTime powf vH e.fdn e.params.decayTime
  let fdn2 := fdn1.setPreDelay (e.params.preDelay * (1 / 1000) * e.sampleRate)
  let fdn3 := fdn2.setRoomSize e.params.roomSize
  let fdn4 := fdn3.setDensity (e.params.density * (1 / 100))
  let fdn5 := FDNReverb.setHighFreqDamping trig fdn4 (e.params.highFreqDamping * (1 / 100))
  fdn5

/-- The engine state after a non-bypassed block whose per-sample loops run
zero times: the parameter push followed by the flush check at the head of the
FDN block call. -/
def paramPushState (powf : ℚ → ℚ → ℚ) (vH : Fin 8 → ℚ) (trig : TrigOracle)
    (e : ReverbEngine) : ReverbEngine :=
  { e with fdn := (pushParams powf vH trig e).checkAndFlushBuffers }

/-- `ReverbEngine::processBlock` (lines 87–177).  `inputs` is the list of
channel buffers (`numChannels = inputs.length`, each of `numSamples`
samples); the returned list is the written output buffers.  `enh` stands for
the `StereoEnhancer::processBlock` applied on the stereo wet bus when
`crossFeed > 0.001` — in the source that object is used without
`initialize()` (its scratch vectors still have size zero), so its behaviour
is out of the C++ contract and it is kept as an abstract parameter here; no
claim touches it. -/
def processBlock (powf : ℚ → ℚ → ℚ) (vH : Fin 8 → ℚ) (trig : TrigOracle)
    (enh : List (ℚ × ℚ) → List (ℚ × ℚ))
    (e : ReverbEngine) (inputs : List (List ℚ)) :
    ReverbEngine × List (List ℚ) :=
  let numChannels := inputs.length
  let numSamples := (inputs.headD []).length
  if e.initialized = false ∨ (numSamples : ℤ) > e.maxBlockSize ∨
      numChannels > MAX_CHANNELS then
    (e, inputs)
  else if e.params.bypass then
    (e, inputs)
  else
    let wetDryMix := e.params.wetDryMix * (1 / 100)
    let fdn0 := pushParams powf vH trig e
    if numChannels = 1 then
      let input := inputs.headD []
      let (fdn1, wet) := fdn0.processMonoBlock input
      let mixed := List.zipWith
        (fun dry w => dry * (1 - wetDryMix) + w * wetDryMix) input wet
      ({ e with fdn := fdn1 }, [mixed])
    else if numChannels = 2 then
      let inL := inputs.headD []
      let inR := (inputs.drop 1).headD []
      let (fdn1, wet) := fdn0.processStereoBlock (inL.zip inR)
      let wet1 := if e.params.crossFeed > 1 / 1000 then enh wet else wet
      let outL := List.zipWith
        (fun dry w => dry * (1 - wetDryMix) + w * wetDryMix) inL (wet1.map Prod.fst)
      let outR := List.zipWith
        (fun dry w => dry * (1 - wetDryMix) + w * wetDryMix) inR (wet1.map Prod.snd)
      ({ e with fdn := fdn1 }, [outL, outR])
    else
      ({ e with fdn := fdn0 }, [])

/-- The engine-level smoothing step `ReverbEngine::ParameterSmoother::process`
(`ReverbEngine.cpp` lines 22–25): `current += coeff·(target − current)`.
(The richer `Reverb::DSP::ParameterSmoother` of `ParameterSmoothing.hpp`,
with its four algorithm branches, is embedded separately below.) -/
def smootherStep (coeff current target : ℚ) : ℚ :=
  current + coeff * (target - current)

/-- Successive smoothed value after processing a sequence of in-effect
targets, starting from current value `c0`. -/
def smoothAfter (coeff c0 : ℚ) (targets : List ℚ) : ℚ :=
  targets.foldl (smootherStep coeff) c0

/-- The engine-side smoothing coefficient `1 − exp(−1/(τ·fs))`
(`ReverbEngine.cpp` line 19). -/
noncomputable def smoothingCoeff (timeInSeconds sampleRate : ℝ) : ℝ :=
  1 - Real.exp (-1 / (timeInSeconds * sampleRate))

end ReverbEngine

/-! ## Concrete instantiations used by witnesses and counterexamples.

The transcendental oracles get harmless rational stand-ins (no claim depends
on their values), and the Householder reflection vector gets the unit vector
`e₀`. -/

/-- Witness stand-in for `std::pow`. -/
def powfDummy : ℚ → ℚ → ℚ := fun _ _ => 3 / 4

/-- Witness stand-in for the `(cos, sin)` oracle. -/
def trigDummy : TrigOracle := fun _ => (1 / 2, 1 / 2)

/-- A concrete unit-norm Householder reflection vector. -/
def vUnit : Fin 8 → ℚ := fun i => if i = 0 then 1 else 0

/-- The FDN as the engine constructs it at 48 kHz. -/
def fdnFix : FDNReverb := FDNReverb.init powfDummy vUnit trigDummy 48000

/-- A freshly constructed engine (not yet initialised). -/
def engFresh : ReverbEngine := ReverbEngine.mkFresh powfDummy vUnit trigDummy

/-- The engine after a successful `initialize(48000, 512)`. -/
def engInit : ReverbEngine :=
  (ReverbEngine.initEngine powfDummy vUnit trigDummy engFresh 48000 512).2

/-! ## C10 — preset application -/

/-- C10: applying `Clean` stores `true` into the bypass flag; applying any of
the four other presets stores `false`; and applying `Custom` changes the
bypass flag only, leaving every other parameter target cell unchanged. -/
theorem claim_C10 :
    (∀ p : Parameters, (applyPresetParameters Preset.Clean p).bypass = true) ∧
    (∀ p : Parameters, (applyPresetParameters Preset.VocalBooth p).bypass = false) ∧
    (∀ p : Parameters, (applyPresetParameters Preset.Studio p).bypass = false) ∧
    (∀ p : Parameters, (applyPresetParameters Preset.Cathedral p).bypass = false) ∧
    (∀ p : Parameters, (applyPresetParameters Preset.Custom p).bypass = false) ∧
    (∀ p : Parameters,
      applyPresetParameters Preset.Custom p = { p with bypass := false }) :=
  ⟨fun _ => rfl, fun _ => rfl, fun _ => rfl, fun _ => rfl, fun _ => rfl,
   fun _ => rfl⟩

/-! ## C1 — bypass pass-through -/

/-- C1: on an initialised engine with the bypass flag set, `processBlock`
returns every input channel bit-exactly as the corresponding output channel
(for one or two channels), touching no wet state at all. -/
theorem claim_C1 (powf : ℚ → ℚ → ℚ) (vH : Fin 8 → ℚ) (trig : TrigOracle)
    (enh : List (ℚ × ℚ) → List (ℚ × ℚ)) (e : ReverbEngine)
    (inputs : List (List ℚ))
    (hinit : e.initialized = true) (hbyp : e.params.bypass = true)
    (hch : inputs.length = 1 ∨ inputs.length = 2) :
    ReverbEngine.processBlock powf vH trig enh e inputs = (e, inputs) := by
  simp only [ReverbEngine.processBlock]
  split_ifs with h1
  · rfl
  · rfl

/-- Closed witness for C1: a concrete initialised engine with `Clean`
(bypass) applied, given a concrete stereo block. -/
theorem claim_C1_witness :
    (ReverbEngine.setPreset engInit Preset.Clean).initialized = true ∧
    ReverbEngine.processBlock powfDummy vUnit trigDummy id
        (ReverbEngine.setPreset engInit Preset.Clean)
        [[1 / 2, -(1 / 4)], [-(1 / 4), 1 / 2]] =
      (ReverbEngine.setPreset engInit Preset.Clean,
       [[1 / 2, -(1 / 4)], [-(1 / 4), 1 / 2]]) :=
  ⟨rfl,
   claim_C1 powfDummy vUnit trigDummy id _ _ rfl rfl (Or.inr rfl)⟩

/-! ## C9 — oversize blocks and channel counts pass through unchanged -/

/-- C9: on an initialised engine, a call with more than two channels or more
samples than the configured maximum copies every input channel verbatim and
leaves the whole engine state unchanged, exactly like the uninitialised
guard. -/
theorem claim_C9 (powf : ℚ → ℚ → ℚ) (vH : Fin 8 → ℚ) (trig : TrigOracle)
    (enh : List (ℚ × ℚ) → List (ℚ × ℚ)) (e : ReverbEngine)
    (inputs : List (List ℚ))
    (hbig : inputs.length > MAX_CHANNELS ∨
      ((inputs.headD []).length : ℤ) > e.maxBlockSize) :
    ReverbEngine.processBlock powf vH trig enh e inputs = (e, inputs) := by
  simp only [ReverbEngine.processBlock]
  rw [if_pos]
  rcases hbig with h | h
  · exact Or.inr (Or.inr h)
  · exact Or.inr (Or.inl h)

/-- Closed witness for C9: a three-channel block on the initialised engine. -/
theorem claim_C9_witness :
    engInit.initialized = true ∧
    ReverbEngine.processBlock powfDummy vUnit trigDummy id engInit
        [[1], [2], [3]] = (engInit, [[1], [2], [3]]) :=
  ⟨rfl, claim_C9 powfDummy vUnit trigDummy id _ _ (Or.inl (by decide))⟩

/-! ## C3 — initialisation failures -/

/-- Counterexample to C3 as stated: `initialize(48000, 0)` — block size zero —
succeeds and marks the engine initialised; the source validates only the
sample-rate range (`ReverbEngine.cpp` lines 58–61). -/
theorem claim_C3_counterexample :
    (ReverbEngine.initEngine powfDummy vUnit trigDummy engFresh 48000 0).1
        = true ∧
    (ReverbEngine.initEngine powfDummy vUnit trigDummy engFresh 48000 0).2.initialized
        = true := by
  constructor
  · rfl
  · rfl

/-- C3 (amended): `initialize` fails exactly on a sample rate outside
`[44100, 96000]` (the block size is not validated); on failure the engine is
returned untouched, hence stays uninitialised, and every `process_block` on
an uninitialised engine copies each input channel to the corresponding
output channel unchanged. -/
theorem claim_C3 :
    (∀ (powf : ℚ → ℚ → ℚ) (vH : Fin 8 → ℚ) (trig : TrigOracle)
        (e : ReverbEngine) (fs : ℚ) (mbs : ℤ),
      (fs < MIN_SAMPLE_RATE ∨ fs > MAX_SAMPLE_RATE) →
        ReverbEngine.initEngine powf vH trig e fs mbs = (false, e)) ∧
    (∀ (powf : ℚ → ℚ → ℚ) (vH : Fin 8 → ℚ) (trig : TrigOracle)
        (enh : List (ℚ × ℚ) → List (ℚ × ℚ)) (e : ReverbEngine)
        (inputs : List (List ℚ)),
      e.initialized = false →
        ReverbEngine.processBlock powf vH trig enh e inputs = (e, inputs)) := by
  constructor
  · intro powf vH trig e fs mbs h
    unfold ReverbEngine.initEngine
    rw [if_pos h]
  · intro powf vH trig enh e inputs h
    simp only [ReverbEngine.processBlock]
    rw [if_pos (Or.inl h)]

/-- Closed witness for C3 (amended): a 1 kHz sample rate is rejected leaving
the fresh engine untouched, and a block through the uninitialised engine is
copied through. -/
theorem claim_C3_witness :
    ReverbEngine.initEngine powfDummy vUnit trigDummy engFresh 1000 512 =
      (false, engFresh) ∧
    ReverbEngine.processBlock powfDummy vUnit trigDummy id engFresh [[1, 2]] =
      (engFresh, [[1, 2]]) :=
  ⟨claim_C3.1 powfDummy vUnit trigDummy engFresh 1000 512 (Or.inl (by decide)),
   claim_C3.2 powfDummy vUnit trigDummy id engFresh [[1, 2]] rfl⟩

/-! ## C5 — density and the diffusion gains -/

/-- The gain of diffusion stage `i` (out-of-range reads return a dummy). -/
def diffusionGain (fdn : FDNReverb) (i : ℕ) : ℚ :=
  (fdn.diffusionFilters.getD i (AllPassFilter.init 0 0)).gain

/-- Gain of the `i`-th element after mapping `setGain v` over a stage list. -/
lemma getD_map_setGain_gain (l : List AllPassFilter) (v : ℚ) :
    ∀ i : ℕ, i < l.length →
      ((l.map fun f => f.setGain v).getD i (AllPassFilter.init 0 0)).gain = v := by
  induction l with
  | nil => intro i h; simp at h
  | cons a l ih =>
    intro i h
    cases i with
    | zero => rfl
    | succ n => exact ih n (by simpa using h)

/-- Counterexample to C5 as stated: after `setDensity(1.0)` on the freshly
constructed FDN there is no uniform offset in `[0, 0.3]` relating the new
gains to the constructor baselines `0.70 − 0.03·i` — `setDensity` overwrites
every stage gain with the single value `0.5 + 0.3·density`
(`FDNReverb.cpp` line 676). -/
theorem claim_C5_counterexample :
    ¬ ∃ off : ℚ, 0 ≤ off ∧ off ≤ 3 / 10 ∧
      ∀ i : ℕ, i < 8 →
        diffusionGain (fdnFix.setDensity 1) i = (7 / 10 - (i : ℚ) * (3 / 100)) + off := by
  rintro ⟨off, -, -, h⟩
  have h0 := h 0 (by norm_num)
  have h1 := h 1 (by norm_num)
  have e0 : diffusionGain (fdnFix.setDensity 1) 0
      = 1 / 2 + max 0 (min (1 : ℚ) 1) * (3 / 10) := rfl
  have e1 : diffusionGain (fdnFix.setDensity 1) 1
      = 1 / 2 + max 0 (min (1 : ℚ) 1) * (3 / 10) := rfl
  rw [e0] at h0
  rw [e1] at h1
  norm_num [max_def, min_def] at h0 h1
  linarith

/-- C5 (amended): the constructor seeds the diffusion gains at the baselines
`0.70 − 0.03·i`; `setDensity` then replaces every stage's gain with the
single uniform value `0.5 + 0.3·density` (density clamped to `[0,1]`), which
lies in `[0.5, 0.8]` and is therefore strictly below `0.95` in magnitude. -/
theorem claim_C5 :
    (∀ (powf : ℚ → ℚ → ℚ) (vH : Fin 8 → ℚ) (trig : TrigOracle) (fs : ℚ)
        (i : ℕ), i < 8 →
      diffusionGain (FDNReverb.init powf vH trig fs) i = 7 / 10 - (i : ℚ) * (3 / 100)) ∧
    (∀ (fdn : FDNReverb) (d : ℚ) (i : ℕ), i < fdn.diffusionFilters.length →
      diffusionGain (fdn.setDensity d) i = 1 / 2 + max 0 (min d 1) * (3 / 10)) ∧
    (∀ d : ℚ, 1 / 2 ≤ 1 / 2 + max 0 (min d 1) * (3 / 10) ∧
      1 / 2 + max 0 (min d 1) * (3 / 10) ≤ 4 / 5 ∧
      |1 / 2 + max 0 (min d 1) * (3 / 10)| < 95 / 100) := by
  refine ⟨?_, ?_, ?_⟩
  · intro powf vH trig fs i hi
    have hproj : (FDNReverb.init powf vH trig fs).diffusionFilters =
        (List.range 8).map fun i =>
          AllPassFilter.init (diffusionPrimes.getD i 0) (7 / 10 - (i : ℚ) * (3 / 100)) := rfl
    unfold diffusionGain
    rw [hproj]
    interval_cases i <;> rfl
  · intro fdn d i hi
    unfold diffusionGain FDNReverb.setDensity
    have hmm : max 0 (min d 1) = max 0 (min d 1) := rfl
    exact getD_map_setGain_gain fdn.diffusionFilters _ i hi
  · intro d
    have h0 : 0 ≤ max 0 (min d 1) := le_max_left 0 (min d 1)
    have h1 : max 0 (min d 1) ≤ 1 :=
      max_le (by norm_num) (min_le_right d 1)
    have hub : max 0 (min d 1) * (3 / 10) ≤ 3 / 10 := by nlinarith
    have hlb : 0 ≤ max 0 (min d 1) * (3 / 10) := by positivity
    refine ⟨by linarith, by linarith, ?_⟩
    rw [abs_lt]
    constructor <;> linarith

/-- Closed witness for C5 (amended): baseline of stage 0 and the uniform
gain after `setDensity(1.0)` on the concrete FDN. -/
theorem claim_C5_witness :
    diffusionGain (FDNReverb.init powfDummy vUnit trigDummy 48000) 0 = 7 / 10 ∧
    diffusionGain (fdnFix.setDensity 1) 2 = 1 / 2 + max 0 (min 1 1) * (3 / 10) := by
  constructor
  · have := claim_C5.1 powfDummy vUnit trigDummy 48000 0 (by decide)
    simpa using this
  · exact claim_C5.2.1 fdnFix 1 2 (by decide)

/-! ## C7 — smoother outputs stay between the written targets -/

lemma foldl_min_le_init {α : Type*} [LinearOrder α] (b : α) (ts : List α) :
    List.foldl min b ts ≤ b := by
  induction ts generalizing b with
  | nil => exact le_refl b
  | cons t ts ih => exact le_trans (ih (min b t)) (min_le_left b t)

lemma le_foldl_max_init {α : Type*} [LinearOrder α] (b : α) (ts : List α) :
    b ≤ List.foldl max b ts := by
  induction ts generalizing b with
  | nil => exact le_refl b
  | cons t ts ih => exact le_trans (le_max_left b t) (ih (max b t))

lemma foldl_min_le_mem {α : Type*} [LinearOrder α] (b : α) {t : α} {ts : List α}
    (h : t ∈ ts) : List.foldl min b ts ≤ t := by
  induction ts generalizing b with
  | nil => cases h
  | cons a ts ih =>
    rcases List.mem_cons.mp h with h' | h'
    · subst h'
      exact le_trans (foldl_min_le_init (min b t) ts) (min_le_right b t)
    · exact ih (min b a) h'

lemma mem_le_foldl_max {α : Type*} [LinearOrder α] (b : α) {t : α} {ts : List α}
    (h : t ∈ ts) : t ≤ List.foldl max b ts := by
  induction ts generalizing b with
  | nil => cases h
  | cons a ts ih =>
    rcases List.mem_cons.mp h with h' | h'
    · subst h'
      exact le_trans (le_max_right b t) (le_foldl_max_init (max b t) ts)
    · exact ih (max b a) h'

/-! ### `Reverb::DSP::ParameterSmoother` (`ParameterSmoothing.hpp`,
lines 32–238)

The full per-parameter smoother: four algorithms (`Linear`, `Exponential`,
`SCurve`, `Logarithmic`), the `isSmoothing_` gate, per-algorithm state set up
by `setTarget`, and the snap-to-target threshold at the end of
`getCurrentValue`.  The float state is modelled over `ℝ` because the
Exponential/SCurve coefficient and the Logarithmic branch are built from
`exp`/`log`; the float literals `1e-6f` / `1e-5f` enter by value. -/

/-- `SmoothingType` (`ParameterSmoothing.hpp` lines 32–37). -/
inductive SmoothingType where
  | Linear
  | Exponential
  | SCurve
  | Logarithmic
  deriving Repr, DecidableEq

/-- `Reverb::DSP::ParameterSmoother`'s fields. -/
structure ParameterSmoother where
  currentValue : ℝ
  targetValue : ℝ
  smoothingCoefficient : ℝ
  smoothingType : SmoothingType
  sampleRate : ℝ
  isSmoothing : Bool
  linearStep : ℝ
  remainingSteps : ℤ
  sCurvePhase : ℝ
  sCurveDelta : ℝ

namespace ParameterSmoother

/-- `ParameterSmoother::setSmoothingTime` (lines 90–110). -/
noncomputable def setSmoothingTime (ps : ParameterSmoother) (timeMs : ℝ) :
    ParameterSmoother :=
  let timeSamples := timeMs / 1000 * ps.sampleRate
  match ps.smoothingType with
  | SmoothingType.Exponential =>
    { ps with smoothingCoefficient := Real.exp (-1 / timeSamples) }
  | SmoothingType.Linear =>
    { ps with linearStep := 1 / timeSamples }
  | SmoothingType.SCurve =>
    { ps with smoothingCoefficient := Real.exp (-1 / timeSamples) }
  | SmoothingType.Logarithmic =>
    { ps with smoothingCoefficient := Real.exp (-1 / timeSamples) }

/-- The constructor (lines 68–83): member initialisers then
`setSmoothingTime`.  `smoothingCoefficient_` has no C++ initialiser and is
first written by a non-`Linear` `setSmoothingTime`; the `Linear` path never
reads it, and the model uses `0` for that never-read initial value. -/
noncomputable def init (initialValue timeMs sampleRate : ℝ)
    (ty : SmoothingType) : ParameterSmoother :=
  setSmoothingTime
    { currentValue := initialValue, targetValue := initialValue
      smoothingCoefficient := 0, smoothingType := ty, sampleRate := sampleRate
      isSmoothing := false, linearStep := 0, remainingSteps := 0
      sCurvePhase := 0, sCurveDelta := 0 } timeMs

/-- `ParameterSmoother::setTarget` (lines 117–139): the target cell is always
stored; smoothing starts (with per-algorithm state) only when the write
moved the target by more than `1e-6`.  In the `Linear` arm the
`static_cast<int>` of the positive `1/linearStep_` is floor. -/
noncomputable def setTarget (ps : ParameterSmoother) (value : ℝ) :
    ParameterSmoother :=
  let previousTarget := ps.targetValue
  let ps1 := { ps with targetValue := value }
  if |value - previousTarget| > 1 / 1000000 then
    match ps.smoothingType with
    | SmoothingType.Linear =>
      { ps1 with isSmoothing := true
                 remainingSteps := Int.floor (1 / ps.linearStep) }
    | SmoothingType.SCurve =>
      { ps1 with isSmoothing := true, sCurvePhase := 0
                 sCurveDelta := 1 / (ps.sampleRate * (5 / 100)) }
    | _ => { ps1 with isSmoothing := true }
  else ps1

/-- `ParameterSmoother::getCurrentValue` (lines 146–201).  The C++ returns
`currentValue_` after all updates, so the returned sample is exactly the
`currentValue` of the resulting state. -/
noncomputable def getCurrentValue (ps : ParameterSmoother) : ParameterSmoother :=
  if ps.isSmoothing = false then ps
  else
    let target := ps.targetValue
    let ps1 :=
      match ps.smoothingType with
      | SmoothingType.Exponential =>
        { ps with currentValue := ps.currentValue * ps.smoothingCoefficient
                    + target * (1 - ps.smoothingCoefficient) }
      | SmoothingType.Linear =>
        if 0 < ps.remainingSteps then
          { ps with currentValue := ps.currentValue
                      + (target - ps.currentValue) * ps.linearStep
                    remainingSteps := ps.remainingSteps - 1 }
        else { ps with currentValue := target }
      | SmoothingType.SCurve =>
        if ps.sCurvePhase < 1 then
          { ps with currentValue := ps.currentValue
                      + (target - ps.currentValue)
                        * (ps.sCurvePhase * ps.sCurvePhase * (3 - 2 * ps.sCurvePhase))
                        * ps.sCurveDelta
                    sCurvePhase := ps.sCurvePhase + ps.sCurveDelta }
        else { ps with currentValue := target }
      | SmoothingType.Logarithmic =>
        if 0 < target ∧ 0 < ps.currentValue then
          { ps with currentValue := Real.exp
                      (Real.log ps.currentValue * ps.smoothingCoefficient
                        + Real.log target * (1 - ps.smoothingCoefficient)) }
        else
          { ps with currentValue := ps.currentValue * ps.smoothingCoefficient
                      + target * (1 - ps.smoothingCoefficient) }
    if |ps1.currentValue - target| < 1 / 100000 then
      { ps1 with currentValue := target, isSmoothing := false }
    else ps1

end ParameterSmoother

/-- One interaction with a smoother: a control-thread target write or an
audio-thread `getCurrentValue` call. -/
inductive SmootherEvent where
  | write (t : ℝ)
  | sample

/-- A finite interleaving of writes and `getCurrentValue` calls. -/
noncomputable def runSmoother (ps : ParameterSmoother) :
    List SmootherEvent → ParameterSmoother
  | [] => ps
  | SmootherEvent.write t :: es => runSmoother (ps.setTarget t) es
  | SmootherEvent.sample :: es => runSmoother ps.getCurrentValue es

/-- The targets written during a run, in order. -/
def writtenTargets : List SmootherEvent → List ℝ
  | [] => []
  | SmootherEvent.write t :: es => t :: writtenTargets es
  | SmootherEvent.sample :: es => writtenTargets es

/-- The step-size state every smoother the source constructs satisfies:
all interpolation coefficients in `[0, 1]`, a non-negative S-curve phase,
and an audio-range sample rate (`≥ 20` Hz keeps the 50 ms S-curve delta
`1/(fs·0.05)` at most `1`). -/
def coeffsBounded (ps : ParameterSmoother) : Prop :=
  0 ≤ ps.smoothingCoefficient ∧ ps.smoothingCoefficient ≤ 1 ∧
  0 ≤ ps.linearStep ∧ ps.linearStep ≤ 1 ∧
  0 ≤ ps.sCurveDelta ∧ ps.sCurveDelta ≤ 1 ∧
  0 ≤ ps.sCurvePhase ∧ 20 ≤ ps.sampleRate

/-- Current value and target both inside `[lo, hi]`. -/
def memInterval (lo hi : ℝ) (ps : ParameterSmoother) : Prop :=
  lo ≤ ps.currentValue ∧ ps.currentValue ≤ hi ∧
  lo ≤ ps.targetValue ∧ ps.targetValue ≤ hi

/-- A convex step `c + (t − c)·u`, `u ∈ [0,1]`, stays inside any interval
containing `c` and `t`. -/
lemma convex_step_mem {lo hi c t u : ℝ} (hc : lo ≤ c) (hc' : c ≤ hi)
    (ht : lo ≤ t) (ht' : t ≤ hi) (hu : 0 ≤ u) (hu' : u ≤ 1) :
    lo ≤ c + (t - c) * u ∧ c + (t - c) * u ≤ hi := by
  constructor
  · nlinarith [mul_nonneg (sub_nonneg.mpr hu') (sub_nonneg.mpr hc),
      mul_nonneg hu (sub_nonneg.mpr ht)]
  · nlinarith [mul_nonneg (sub_nonneg.mpr hu') (sub_nonneg.mpr hc'),
      mul_nonneg hu (sub_nonneg.mpr ht')]

/-- The geometric interpolation of the `Logarithmic` branch stays inside any
interval containing the two positive endpoints. -/
lemma log_step_mem {lo hi c t k : ℝ} (hcpos : 0 < c) (htpos : 0 < t)
    (hc : lo ≤ c) (hc' : c ≤ hi) (ht : lo ≤ t) (ht' : t ≤ hi)
    (hk : 0 ≤ k) (hk' : k ≤ 1) :
    lo ≤ Real.exp (Real.log c * k + Real.log t * (1 - k)) ∧
      Real.exp (Real.log c * k + Real.log t * (1 - k)) ≤ hi := by
  have hcombo_hi : Real.log c * k + Real.log t * (1 - k)
      ≤ max (Real.log c) (Real.log t) := by
    nlinarith [le_max_left (Real.log c) (Real.log t),
      le_max_right (Real.log c) (Real.log t)]
  have hcombo_lo : min (Real.log c) (Real.log t)
      ≤ Real.log c * k + Real.log t * (1 - k) := by
    nlinarith [min_le_left (Real.log c) (Real.log t),
      min_le_right (Real.log c) (Real.log t)]
  constructor
  · have h1 : Real.exp (min (Real.log c) (Real.log t))
        ≤ Real.exp (Real.log c * k + Real.log t * (1 - k)) :=
      Real.exp_le_exp.mpr hcombo_lo
    rcases min_cases (Real.log c) (Real.log t) with ⟨heq, -⟩ | ⟨heq, -⟩ <;>
      rw [heq] at h1
    · rw [Real.exp_log hcpos] at h1; linarith
    · rw [Real.exp_log htpos] at h1; linarith
  · have h1 : Real.exp (Real.log c * k + Real.log t * (1 - k))
        ≤ Real.exp (max (Real.log c) (Real.log t)) :=
      Real.exp_le_exp.mpr hcombo_hi
    rcases max_cases (Real.log c) (Real.log t) with ⟨heq, -⟩ | ⟨heq, -⟩ <;>
      rw [heq] at h1
    · rw [Real.exp_log hcpos] at h1; linarith
    · rw [Real.exp_log htpos] at h1; linarith

/-- One `getCurrentValue` call keeps the value and target inside the
interval (every branch is a convex or geometric interpolation, or a snap to
the target) and preserves the step-size bounds. -/
lemma getCurrentValue_mem {lo hi : ℝ} {ps : ParameterSmoother}
    (hb : coeffsBounded ps) (hm : memInterval lo hi ps) :
    memInterval lo hi ps.getCurrentValue ∧ coeffsBounded ps.getCurrentValue := by
  obtain ⟨hk0, hk1, hl0, hl1, hd0, hd1, hp0, hfs⟩ := hb
  obtain ⟨hc0, hc1, ht0, ht1⟩ := hm
  unfold ParameterSmoother.getCurrentValue
  by_cases hS : ps.isSmoothing = false
  · rw [if_pos hS]
    exact ⟨⟨hc0, hc1, ht0, ht1⟩, hk0, hk1, hl0, hl1, hd0, hd1, hp0, hfs⟩
  · rw [if_neg hS]
    have hexp : lo ≤ ps.currentValue * ps.smoothingCoefficient
          + ps.targetValue * (1 - ps.smoothingCoefficient) ∧
        ps.currentValue * ps.smoothingCoefficient
          + ps.targetValue * (1 - ps.smoothingCoefficient) ≤ hi := by
      have h := convex_step_mem hc0 hc1 ht0 ht1
        (u := 1 - ps.smoothingCoefficient) (by linarith) (by linarith)
      constructor <;> nlinarith [h.1, h.2]
    cases hty : ps.smoothingType <;> dsimp only
    · -- Linear
      split_ifs with hrem hsnap hsnap
      · refine ⟨⟨?_, ?_, ht0, ht1⟩, hk0, hk1, hl0, hl1, hd0, hd1, hp0, hfs⟩ <;>
          simp only
        · exact ht0
        · exact ht1
      · exact ⟨⟨(convex_step_mem hc0 hc1 ht0 ht1 hl0 hl1).1,
          (convex_step_mem hc0 hc1 ht0 ht1 hl0 hl1).2, ht0, ht1⟩,
          hk0, hk1, hl0, hl1, hd0, hd1, hp0, hfs⟩
      · exact ⟨⟨ht0, ht1, ht0, ht1⟩, hk0, hk1, hl0, hl1, hd0, hd1, hp0, hfs⟩
      · exact ⟨⟨ht0, ht1, ht0, ht1⟩, hk0, hk1, hl0, hl1, hd0, hd1, hp0, hfs⟩
    · -- Exponential
      split_ifs with hsnap
      · exact ⟨⟨ht0, ht1, ht0, ht1⟩, hk0, hk1, hl0, hl1, hd0, hd1, hp0, hfs⟩
      · exact ⟨⟨hexp.1, hexp.2, ht0, ht1⟩, hk0, hk1, hl0, hl1, hd0, hd1, hp0, hfs⟩
    · -- SCurve
      split_ifs with hph hsnap hsnap
      · exact ⟨⟨ht0, ht1, ht0, ht1⟩, hk0, hk1, hl0, hl1, hd0, hd1,
          by positivity, hfs⟩
      · have hss0 : 0 ≤ ps.sCurvePhase * ps.sCurvePhase * (3 - 2 * ps.sCurvePhase) := by
          nlinarith
        have hss1 : ps.sCurvePhase * ps.sCurvePhase * (3 - 2 * ps.sCurvePhase) ≤ 1 := by
          nlinarith [sq_nonneg (1 - ps.sCurvePhase)]
        have hu0 : 0 ≤ ps.sCurvePhase * ps.sCurvePhase * (3 - 2 * ps.sCurvePhase)
            * ps.sCurveDelta := mul_nonneg hss0 hd0
        have hu1 : ps.sCurvePhase * ps.sCurvePhase * (3 - 2 * ps.sCurvePhase)
            * ps.sCurveDelta ≤ 1 := by nlinarith
        have h := convex_step_mem hc0 hc1 ht0 ht1 hu0 hu1
        refine ⟨⟨?_, ?_, ht0, ht1⟩, hk0, hk1, hl0, hl1, hd0, hd1,
          by positivity, hfs⟩
        · calc lo ≤ ps.currentValue + (ps.targetValue - ps.currentValue)
              * (ps.sCurvePhase * ps.sCurvePhase * (3 - 2 * ps.sCurvePhase))
              * ps.sCurveDelta := by nlinarith [h.1]
          _ = _ := rfl
        · calc ps.currentValue + (ps.targetValue - ps.currentValue)
              * (ps.sCurvePhase * ps.sCurvePhase * (3 - 2 * ps.sCurvePhase))
              * ps.sCurveDelta ≤ hi := by nlinarith [h.2]
          _ = _ := rfl
      · exact ⟨⟨ht0, ht1, ht0, ht1⟩, hk0, hk1, hl0, hl1, hd0, hd1, hp0, hfs⟩
      · exact ⟨⟨ht0, ht1, ht0, ht1⟩, hk0, hk1, hl0, hl1, hd0, hd1, hp0, hfs⟩
    · -- Logarithmic
      split_ifs with hpos hsnap hsnap
      · exact ⟨⟨ht0, ht1, ht0, ht1⟩, hk0, hk1, hl0, hl1, hd0, hd1, hp0, hfs⟩
      · exact ⟨⟨(log_step_mem hpos.2 hpos.1 hc0 hc1 ht0 ht1 hk0 hk1).1,
          (log_step_mem hpos.2 hpos.1 hc0 hc1 ht0 ht1 hk0 hk1).2, ht0, ht1⟩,
          hk0, hk1, hl0, hl1, hd0, hd1, hp0, hfs⟩
      · exact ⟨⟨ht0, ht1, ht0, ht1⟩, hk0, hk1, hl0, hl1, hd0, hd1, hp0, hfs⟩
      · exact ⟨⟨hexp.1, hexp.2, ht0, ht1⟩, hk0, hk1, hl0, hl1, hd0, hd1, hp0, hfs⟩

/-- A target write inside the interval keeps the state inside it and
re-establishes the step-size bounds (the S-curve arm rewrites the phase to
`0` and the delta to `1/(fs·0.05) ≤ 1`). -/
lemma setTarget_mem {lo hi t : ℝ} {ps : ParameterSmoother}
    (hb : coeffsBounded ps) (hm : memInterval lo hi ps)
    (ht0 : lo ≤ t) (ht1 : t ≤ hi) :
    memInterval lo hi (ps.setTarget t) ∧ coeffsBounded (ps.setTarget t) := by
  obtain ⟨hk0, hk1, hl0, hl1, hd0, hd1, hp0, hfs⟩ := hb
  obtain ⟨hc0, hc1, -, -⟩ := hm
  have hfs0 : (0 : ℝ) < ps.sampleRate * (5 / 100) := by nlinarith
  have hdelta0 : 0 ≤ 1 / (ps.sampleRate * (5 / 100)) := by positivity
  have hdelta1 : 1 / (ps.sampleRate * (5 / 100)) ≤ 1 := by
    rw [div_le_one hfs0]; nlinarith
  simp only [ParameterSmoother.setTarget]
  split_ifs with hchg
  · cases hty : ps.smoothingType <;> dsimp only
    · exact ⟨⟨hc0, hc1, ht0, ht1⟩, hk0, hk1, hl0, hl1, hd0, hd1, hp0, hfs⟩
    · exact ⟨⟨hc0, hc1, ht0, ht1⟩, hk0, hk1, hl0, hl1, hd0, hd1, hp0, hfs⟩
    · exact ⟨⟨hc0, hc1, ht0, ht1⟩, hk0, hk1, hl0, hl1, hdelta0, hdelta1,
        le_refl 0, hfs⟩
    · exact ⟨⟨hc0, hc1, ht0, ht1⟩, hk0, hk1, hl0, hl1, hd0, hd1, hp0, hfs⟩
  · exact ⟨⟨hc0, hc1, ht0, ht1⟩, hk0, hk1, hl0, hl1, hd0, hd1, hp0, hfs⟩

/-- Interval invariant over a whole run of writes and reads. -/
lemma runSmoother_mem (lo hi : ℝ) :
    ∀ (es : List SmootherEvent) (ps : ParameterSmoother),
      coeffsBounded ps → memInterval lo hi ps →
      (∀ t, SmootherEvent.write t ∈ es → lo ≤ t ∧ t ≤ hi) →
      memInterval lo hi (runSmoother ps es) := by
  intro es
  induction es with
  | nil => intro ps _ hm _; exact hm
  | cons e es ih =>
    intro ps hb hm hw
    cases e with
    | write t =>
      have hT := hw t (List.mem_cons_self _ _)
      obtain ⟨hm1, hb1⟩ := setTarget_mem hb hm hT.1 hT.2
      exact ih _ hb1 hm1 fun t' h' => hw t' (List.mem_cons_of_mem _ h')
    | sample =>
      obtain ⟨hm1, hb1⟩ := getCurrentValue_mem hb hm
      exact ih _ hb1 hm1 fun t' h' => hw t' (List.mem_cons_of_mem _ h')

/-- The constructor produces bounded step sizes for every smoothing time and
sample rate the source configures (strictly positive time, audio-range
sample rate, at least one sample of smoothing). -/
lemma coeffsBounded_init (t0 timeMs fs : ℝ) (ty : SmoothingType)
    (h1 : 0 < timeMs) (h2 : 20 ≤ fs) (h3 : 1000 ≤ timeMs * fs) :
    coeffsBounded (ParameterSmoother.init t0 timeMs fs ty) ∧
    (ParameterSmoother.init t0 timeMs fs ty).currentValue = t0 ∧
    (ParameterSmoother.init t0 timeMs fs ty).targetValue = t0 := by
  have hfs0 : (0 : ℝ) < fs := by linarith
  have hts0 : (0 : ℝ) < timeMs / 1000 * fs := by positivity
  have hts1 : (1 : ℝ) ≤ timeMs / 1000 * fs := by
    rw [div_mul_eq_mul_div, le_div_iff (by norm_num : (0:ℝ) < 1000)]
    linarith
  have hexp0 : 0 ≤ Real.exp (-1 / (timeMs / 1000 * fs)) := (Real.exp_pos _).le
  have hexp1 : Real.exp (-1 / (timeMs / 1000 * fs)) ≤ 1 := by
    apply Real.exp_le_one_iff.mpr
    apply div_nonpos_of_nonpos_of_nonneg <;> linarith
  have hinv0 : 0 ≤ 1 / (timeMs / 1000 * fs) := by positivity
  have hinv1 : 1 / (timeMs / 1000 * fs) ≤ 1 := by
    rw [div_le_one hts0]; exact hts1
  unfold ParameterSmoother.init ParameterSmoother.setSmoothingTime
  cases ty <;>
    exact ⟨⟨by first | exact hexp0 | exact le_refl 0,
      by first | exact hexp1 | exact zero_le_one,
      by first | exact hinv0 | exact le_refl 0,
      by first | exact hinv1 | exact zero_le_one,
      le_refl 0, zero_le_one, le_refl 0, h2⟩, rfl, rfl⟩

/-- A write event's payload is among the written targets. -/
lemma mem_writtenTargets {t : ℝ} :
    ∀ {es : List SmootherEvent}, SmootherEvent.write t ∈ es →
      t ∈ writtenTargets es := by
  intro es
  induction es with
  | nil => intro h; cases h
  | cons e es ih =>
    intro h
    cases e with
    | write t' =>
      rcases List.mem_cons.mp h with h' | h'
      · cases h'
        exact List.mem_cons_self _ _
      · exact List.mem_cons_of_mem _ (ih h')
    | sample =>
      rcases List.mem_cons.mp h with h' | h'
      · cases h'
      · exact ih h'

/-- The smoothing step is a convex combination, so it preserves any interval
containing the current value and the target. -/
lemma smoothAfter_mem_Icc (k : ℚ) (hk0 : 0 ≤ k) (hk1 : k ≤ 1) :
    ∀ (ts : List ℚ) (c0 lo hi : ℚ), lo ≤ c0 → c0 ≤ hi →
      (∀ t ∈ ts, lo ≤ t ∧ t ≤ hi) →
      lo ≤ ReverbEngine.smoothAfter k c0 ts ∧
        ReverbEngine.smoothAfter k c0 ts ≤ hi := by
  intro ts
  induction ts with
  | nil => intro c0 lo hi h1 h2 _; exact ⟨h1, h2⟩
  | cons t ts ih =>
    intro c0 lo hi h1 h2 hmem
    have ht := hmem t (List.mem_cons_self t ts)
    have hlo : lo ≤ ReverbEngine.smootherStep k c0 t := by
      unfold ReverbEngine.smootherStep
      nlinarith [mul_nonneg hk0 (sub_nonneg.mpr ht.1),
        mul_nonneg (sub_nonneg.mpr hk1) (sub_nonneg.mpr h1)]
    have hhi : ReverbEngine.smootherStep k c0 t ≤ hi := by
      unfold ReverbEngine.smootherStep
      nlinarith [mul_nonneg hk0 (sub_nonneg.mpr (sub_nonneg.mpr ht.2 : (0:ℚ) ≤ hi - t)),
        mul_nonneg (sub_nonneg.mpr hk1) (sub_nonneg.mpr h2)]
    exact ih (ReverbEngine.smootherStep k c0 t) lo hi hlo hhi
      fun t' h' => hmem t' (List.mem_cons_of_mem t h')

/-- C7: for every parameter smoother the source constructs — any of the four
algorithms `Linear`/`Exponential`/`SCurve`/`Logarithmic` of
`Reverb::DSP::ParameterSmoother` (strictly positive smoothing time, audio
sample rate `fs ≥ 20`, at least one sample of smoothing
`timeMs·fs ≥ 1000`), any initial current value equal to the first written
target, and any finite interleaving of target writes with `getCurrentValue`
calls — each successive smoothed output value lies between the minimum and
the maximum of the targets written so far.  Likewise for the engine-level
`ReverbEngine::ParameterSmoother`: its coefficient `1 − exp(−1/(τ·fs))`
lies in `[0, 1]` for positive time constant and sample rate, and for any
coefficient in `[0, 1]` every successive smoothed value stays between the
minimum and the maximum of the written targets. -/
theorem claim_C7 :
    (∀ (t0 timeMs fs : ℝ) (ty : SmoothingType) (es : List SmootherEvent),
      0 < timeMs → 20 ≤ fs → 1000 ≤ timeMs * fs →
      List.foldl min t0 (writtenTargets es)
          ≤ (runSmoother (ParameterSmoother.init t0 timeMs fs ty) es).currentValue ∧
        (runSmoother (ParameterSmoother.init t0 timeMs fs ty) es).currentValue
          ≤ List.foldl max t0 (writtenTargets es)) ∧
    (∀ t fs : ℝ, 0 < t → 0 < fs →
      0 ≤ ReverbEngine.smoothingCoeff t fs ∧ ReverbEngine.smoothingCoeff t fs ≤ 1) ∧
    (∀ (k t0 : ℚ) (ts : List ℚ), 0 ≤ k → k ≤ 1 →
      List.foldl min t0 ts ≤ ReverbEngine.smoothAfter k t0 ts ∧
        ReverbEngine.smoothAfter k t0 ts ≤ List.foldl max t0 ts) := by
  refine ⟨?_, ?_, ?_⟩
  · intro t0 timeMs fs ty es h1 h2 h3
    obtain ⟨hb, hc, ht⟩ := coeffsBounded_init t0 timeMs fs ty h1 h2 h3
    have hm : memInterval (List.foldl min t0 (writtenTargets es))
        (List.foldl max t0 (writtenTargets es))
        (ParameterSmoother.init t0 timeMs fs ty) := by
      unfold memInterval
      rw [hc, ht]
      exact ⟨foldl_min_le_init t0 _, le_foldl_max_init t0 _,
        foldl_min_le_init t0 _, le_foldl_max_init t0 _⟩
    have hres := runSmoother_mem _ _ es _ hb hm
      fun t h => ⟨foldl_min_le_mem t0 (mem_writtenTargets h),
        mem_le_foldl_max t0 (mem_writtenTargets h)⟩
    exact ⟨hres.1, hres.2.1⟩
  · intro t fs ht hfs
    unfold ReverbEngine.smoothingCoeff
    have hpos : 0 < t * fs := mul_pos ht hfs
    have harg : -1 / (t * fs) ≤ 0 := by
      apply div_nonpos_of_nonpos_of_nonneg <;> linarith
    constructor
    · have := Real.exp_le_one_iff.mpr harg
      linarith
    · have := (Real.exp_pos (-1 / (t * fs))).le
      linarith
  · intro k t0 ts hk0 hk1
    exact smoothAfter_mem_Icc k hk0 hk1 ts t0 _ _
      (foldl_min_le_init t0 ts) (le_foldl_max_init t0 ts)
      fun t ht => ⟨foldl_min_le_mem t0 ht, mem_le_foldl_max t0 ht⟩

/-- Closed witness for C7: an S-curve smoother at 30 ms / 48 kHz run through
a write and a read, plus concrete engine-smoother instances. -/
theorem claim_C7_witness :
    List.foldl min (1 / 2 : ℝ)
        (writtenTargets [SmootherEvent.write 1, SmootherEvent.sample])
      ≤ (runSmoother (ParameterSmoother.init (1 / 2) 30 48000 SmoothingType.SCurve)
          [SmootherEvent.write 1, SmootherEvent.sample]).currentValue ∧
    0 ≤ ReverbEngine.smoothingCoeff 1 1 ∧
    List.foldl min 0 [1, 1 / 2] ≤ ReverbEngine.smoothAfter (1 / 2) 0 [1, 1 / 2] :=
  ⟨(claim_C7.1 (1 / 2) 30 48000 SmoothingType.SCurve
      [SmootherEvent.write 1, SmootherEvent.sample]
      (by norm_num) (by norm_num) (by norm_num)).1,
   (claim_C7.2.1 1 1 one_pos one_pos).1,
   (claim_C7.2.2 (1 / 2) 0 [1, 1 / 2] (by norm_num) (by norm_num)).1⟩

/-! ## C2 — RT60 gain cap and Householder orthogonality -/

lemma matVec_householder (v x : Fin 8 → ℚ) (i : Fin 8) :
    matVec (householderEntry v) x i = x i - 2 * v i * (∑ k, v k * x k) := by
  unfold matVec householderEntry
  have h : ∀ j : Fin 8, ((if i = j then (1 : ℚ) else 0) - 2 * v i * v j) * x j
      = (if i = j then x j else 0) - 2 * v i * (v j * x j) := by
    intro j; split_ifs <;> ring
  rw [Finset.sum_congr rfl fun j _ => h j, Finset.sum_sub_distrib,
    Finset.sum_ite_eq Finset.univ i x, ← Finset.mul_sum]
  simp

lemma sum_mul_householder (v : Fin 8 → ℚ) (hv : (∑ i, v i ^ 2) = 1) (j : Fin 8) :
    ∑ k, v k * householderEntry v j k = -v j := by
  unfold householderEntry
  have h : ∀ k : Fin 8, v k * ((if j = k then (1 : ℚ) else 0) - 2 * v j * v k)
      = (if j = k then v k else 0) - 2 * v j * v k ^ 2 := by
    intro k; split_ifs <;> ring
  rw [Finset.sum_congr rfl fun k _ => h k, Finset.sum_sub_distrib,
    Finset.sum_ite_eq Finset.univ j v, ← Finset.mul_sum, hv]
  simp; ring

lemma householder_orthogonal (v : Fin 8 → ℚ) (hv : (∑ i, v i ^ 2) = 1)
    (i j : Fin 8) :
    ∑ k, householderEntry v i k * householderEntry v j k
      = if i = j then 1 else 0 := by
  have h : ∀ k : Fin 8, householderEntry v i k * householderEntry v j k
      = (if j = k then householderEntry v i k else 0)
        - 2 * v j * (v k * householderEntry v i k) := by
    intro k
    have hk : householderEntry v j k = (if j = k then (1 : ℚ) else 0) - 2 * v j * v k := rfl
    rw [hk]
    split_ifs <;> ring
  rw [Finset.sum_congr rfl fun k _ => h k, Finset.sum_sub_distrib,
    Finset.sum_ite_eq Finset.univ j (householderEntry v i), ← Finset.mul_sum,
    sum_mul_householder v hv i]
  simp only [Finset.mem_univ, if_true]
  unfold householderEntry
  by_cases hij : i = j
  · subst hij; simp
  · rw [if_neg hij]
    ring

lemma matVec_householder_norm (v : Fin 8 → ℚ) (hv : (∑ i, v i ^ 2) = 1)
    (x : Fin 8 → ℚ) :
    ∑ i, matVec (householderEntry v) x i ^ 2 = ∑ i, x i ^ 2 := by
  have h : ∀ i : Fin 8, matVec (householderEntry v) x i ^ 2
      = x i ^ 2 - 4 * (∑ k, v k * x k) * (v i * x i)
        + 4 * (∑ k, v k * x k) ^ 2 * v i ^ 2 := by
    intro i
    rw [matVec_householder v x i]
    ring
  rw [Finset.sum_congr rfl fun i _ => h i, Finset.sum_add_distrib,
    Finset.sum_sub_distrib, ← Finset.mul_sum, ← Finset.mul_sum, hv]
  ring

lemma matVec_smul_householder (g : ℚ) (v x : Fin 8 → ℚ) (i : Fin 8) :
    matVec (fun i j => g * householderEntry v i j) x i
      = g * matVec (householderEntry v) x i := by
  unfold matVec
  rw [Finset.mul_sum]
  exact Finset.sum_congr rfl fun j _ => by ring

/-- C2: the scalar gain applied to the Householder feedback matrix equals
`min (g*·hf_factor·lf_factor) (min 0.97 (0.98 − 0.03·room_size))` — with
`g* = 10^(−3·τ̄/(fs·RT60))` on the size-limited, floored RT60 — and is
therefore at most `0.97`; for a unit reflection vector the Householder matrix
is orthogonal (`H·Hᵀ = I` entrywise, as `verifyMatrixOrthogonality` checks),
multiplication by it preserves the sum of squares, and the scaled matrix
`g·H` contracts every vector's energy by at least the factor `0.97²`. -/
theorem claim_C2 :
    (∀ (powf : ℚ → ℚ → ℚ) (fs dt room hf lf : ℚ),
      setupFinalGain powf fs dt room hf lf
        = min (powf 10 (-3 * (averageDelayTime fs room / fs)
              / max (min dt (calculateMaxDecayForSize room)) (5 / 100))
            * (1 - hf * (25 / 100)) * (1 - lf * (15 / 100)))
          (min (97 / 100) (98 / 100 - room * (3 / 100)))) ∧
    (∀ (powf : ℚ → ℚ → ℚ) (fs dt room hf lf : ℚ),
      setupFinalGain powf fs dt room hf lf ≤ 97 / 100) ∧
    (∀ v : Fin 8 → ℚ, (∑ i, v i ^ 2) = 1 →
      (∀ i j, ∑ k, householderEntry v i k * householderEntry v j k
        = if i = j then 1 else 0) ∧
      (∀ x, ∑ i, matVec (householderEntry v) x i ^ 2 = ∑ i, x i ^ 2)) ∧
    (∀ (powf : ℚ → ℚ → ℚ) (vH : Fin 8 → ℚ) (fs dt room hf lf : ℚ)
        (x : Fin 8 → ℚ),
      (∑ i, vH i ^ 2) = 1 →
      0 ≤ setupFinalGain powf fs dt room hf lf →
      ∑ i, matVec (computeFeedbackMatrix powf vH fs dt room hf lf) x i ^ 2
        ≤ (97 / 100) ^ 2 * ∑ i, x i ^ 2) := by
  refine ⟨fun powf fs dt room hf lf => rfl, ?_, ?_, ?_⟩
  · intro powf fs dt room hf lf
    simp only [setupFinalGain]
    exact le_trans (min_le_right _ _) (min_le_left _ _)
  · intro v hv
    exact ⟨householder_orthogonal v hv, matVec_householder_norm v hv⟩
  · intro powf vH fs dt room hf lf x hv hg0
    have hmat : ∀ i, matVec (computeFeedbackMatrix powf vH fs dt room hf lf) x i
        = setupFinalGain powf fs dt room hf lf * matVec (householderEntry vH) x i :=
      fun i => matVec_smul_householder _ vH x i
    have hsq : ∑ i, matVec (computeFeedbackMatrix powf vH fs dt room hf lf) x i ^ 2
        = setupFinalGain powf fs dt room hf lf ^ 2 * ∑ i, x i ^ 2 := by
      rw [Finset.sum_congr rfl fun i _ => by rw [hmat i, mul_pow],
        ← Finset.mul_sum, matVec_householder_norm vH hv x]
    rw [hsq]
    have hgcap : setupFinalGain powf fs dt room hf lf ≤ 97 / 100 := by
      simp only [setupFinalGain]
      exact le_trans (min_le_right _ _) (min_le_left _ _)
    have hg2 : setupFinalGain powf fs dt room hf lf ^ 2 ≤ (97 / 100) ^ 2 :=
      pow_le_pow_left₀ hg0 hgcap 2
    exact mul_le_mul_of_nonneg_right hg2
      (Finset.sum_nonneg fun i _ => sq_nonneg (x i))

/-- Closed witness for C2: the concrete unit reflection vector `e₀`, the
orthogonality entry at `(0,0)`, and the gain cap at the constructor's
default parameters. -/
theorem claim_C2_witness :
    (∑ i, vUnit i ^ 2) = 1 ∧
    (∑ k, householderEntry vUnit 0 k * householderEntry vUnit 0 k
      = if (0 : Fin 8) = 0 then 1 else 0) ∧
    setupFinalGain powfDummy 48000 2 (1 / 2) (3 / 10) (2 / 10) ≤ 97 / 100 := by
  have hv : (∑ i, vUnit i ^ 2) = 1 := by
    norm_num [vUnit, Fin.sum_univ_eight]
  exact ⟨hv, (claim_C2.2.2.1 vUnit hv).1 0 0,
    claim_C2.2.1 powfDummy 48000 2 (1 / 2) (3 / 10) (2 / 10)⟩

/-! ## C6 — room-size changes schedule a flush that zeros all buffers -/

lemma buffersCleared_flushAll (f : FDNReverb) : f.flushAllBuffers.buffersCleared := by
  unfold FDNReverb.flushAllBuffers FDNReverb.buffersCleared
  refine ⟨?_, ?_, ?_, ?_, ?_, ?_, ?_, ?_⟩
  · intro j
    simp [DelayLine.clear, DelayLine.isCleared]
  · intro g hg
    rcases List.mem_map.mp hg with ⟨g0, -, rfl⟩
    simp [AllPassFilter.clear, AllPassFilter.isCleared, DelayLine.clear,
      DelayLine.isCleared]
  · intro g hg
    rcases List.mem_map.mp hg with ⟨g0, -, rfl⟩
    simp [AllPassFilter.clear, AllPassFilter.isCleared, DelayLine.clear,
      DelayLine.isCleared]
  · intro j
    simp [DampingFilter.clear, DampingFilter.isCleared, BiquadFilter.clear,
      BiquadFilter.isCleared]
  · intro j
    simp [ModulatedDelay.clear, ModulatedDelay.isCleared, DelayLine.clear,
      DelayLine.isCleared]
  · simp [DelayLine.clear, DelayLine.isCleared]
  · intro j; rfl
  · intro j; rfl

/-- `buffersCleared` ignores the pending-flush flag. -/
lemma buffersCleared_update_flag (f : FDNReverb) (b : Bool)
    (h : f.buffersCleared) :
    ({ f with needsBufferFlush := b } : FDNReverb).buffersCleared := h

/-- A block call that starts with the pending-flush flag set clears the flag
and leaves every buffer zeroed. -/
lemma checkAndFlush_of_flag (f : FDNReverb) (h : f.needsBufferFlush = true) :
    f.checkAndFlushBuffers.needsBufferFlush = false ∧
      f.checkAndFlushBuffers.buffersCleared := by
  simp only [FDNReverb.checkAndFlushBuffers]
  split_ifs with h1 h2 h3 <;>
    first
      | exact ⟨rfl, buffersCleared_update_flag _ _ (buffersCleared_flushAll _)⟩
      | exact absurd rfl (by assumption)
      | exact absurd h (by assumption)

/-- The flush check never leaves the pending-flush flag set. -/
lemma checkAndFlush_flag_false (f : FDNReverb) :
    f.checkAndFlushBuffers.needsBufferFlush = false := by
  simp only [FDNReverb.checkAndFlushBuffers]
  split_ifs with h1 h2 h3 <;>
    first
      | rfl
      | exact absurd rfl (by assumption)
      | exact Bool.of_not_eq_true (by assumption)

/-- C6: a `set_room_size` whose clamped value moves by more than `0.05`
schedules a buffer flush, and the flush check at the head of the next block
call (before any sample is processed) consumes the flag and zeroes all
delay-line, all-pass, damping-filter, modulated-delay and pre-delay state. -/
theorem claim_C6 (fdn : FDNReverb) (x : ℚ) (hx0 : 0 ≤ x) (hx1 : x ≤ 1)
    (hdelta : |x - fdn.roomSize| > FDNReverb.roomSizeChangeThreshold) :
    (fdn.setRoomSize x).needsBufferFlush = true ∧
    (fdn.setRoomSize x).checkAndFlushBuffers.needsBufferFlush = false ∧
    (fdn.setRoomSize x).checkAndFlushBuffers.buffersCleared := by
  have hc : clampQ x 0 1 = x := by
    unfold clampQ
    rw [min_eq_right hx1, max_eq_right hx0]
  have hflag : (fdn.setRoomSize x).needsBufferFlush = true := by
    simp only [FDNReverb.setRoomSize, FDNReverb.setupEarlyReflections,
      FDNReverb.setupDelayLengths, hc]
    rw [if_pos hdelta]
  obtain ⟨h1, h2⟩ := checkAndFlush_of_flag _ hflag
  exact ⟨hflag, h1, h2⟩

/-- Closed witness for C6: moving the concrete FDN's room size from `0.5`
to `1`. -/
theorem claim_C6_witness :
    (fdnFix.setRoomSize 1).needsBufferFlush = true ∧
    (fdnFix.setRoomSize 1).checkAndFlushBuffers.buffersCleared := by
  have hdelta : |(1 : ℚ) - fdnFix.roomSize| > FDNReverb.roomSizeChangeThreshold := by
    rw [show fdnFix.roomSize = 1 / 2 from rfl,
      abs_of_nonneg (by norm_num : (0 : ℚ) ≤ 1 - 1 / 2)]
    norm_num [FDNReverb.roomSizeChangeThreshold]
  exact ⟨(claim_C6 fdnFix 1 zero_le_one (le_refl 1) hdelta).1,
    (claim_C6 fdnFix 1 zero_le_one (le_refl 1) hdelta).2.2⟩

/-! ## C8 — `process_block` with zero samples -/

/-- A one-channel zero-sample call runs the parameter push and the flush
check, writes nothing, and performs no per-sample processing. -/
lemma processBlock_zero_mono (powf : ℚ → ℚ → ℚ) (vH : Fin 8 → ℚ)
    (trig : TrigOracle) (enh : List (ℚ × ℚ) → List (ℚ × ℚ))
    (e : ReverbEngine) (hinit : e.initialized = true)
    (hbyp : e.params.bypass = false) (hmax : 0 ≤ e.maxBlockSize) :
    ReverbEngine.processBlock powf vH trig enh e [[]]
      = (ReverbEngine.paramPushState powf vH trig e, [[]]) := by
  simp [ReverbEngine.processBlock, hinit, hbyp, ReverbEngine.paramPushState,
    FDNReverb.processMonoBlock, MAX_CHANNELS,
    show ¬((0 : ℤ) > e.maxBlockSize) from by omega]

/-- Concrete engine with a pending buffer flush scheduled. -/
def engFlush : ReverbEngine :=
  { engInit with fdn := { engInit.fdn with needsBufferFlush := true } }

/-- Counterexample to C8 as stated: with a flush pending, a zero-sample
`processBlock` call does not leave the state unchanged — the pending-flush
flag is consumed (`processMono` runs `checkAndFlushBuffers` before its
sample loop, and the parameter push reruns regardless of the sample
count). -/
theorem claim_C8_counterexample :
    engFlush.fdn.needsBufferFlush = true ∧
    (ReverbEngine.processBlock powfDummy vUnit trigDummy id
        engFlush [[]]).1.fdn.needsBufferFlush = false := by
  refine ⟨rfl, ?_⟩
  rw [processBlock_zero_mono powfDummy vUnit trigDummy id engFlush rfl rfl
    (by decide)]
  exact checkAndFlush_flag_false _

/-- C8 (amended): a one-channel `process_block` with zero samples writes no
output samples and runs no per-sample processing, but does not return
immediately: the parameter push into the FDN and the pending-flush check
still run, so the resulting state is the parameter-push state, the
pending-flush flag is always clear afterwards, and the call leaves the
engine unchanged exactly when the engine is already a fixed point of that
push. -/
theorem claim_C8 (powf : ℚ → ℚ → ℚ) (vH : Fin 8 → ℚ) (trig : TrigOracle)
    (enh : List (ℚ × ℚ) → List (ℚ × ℚ)) (e : ReverbEngine)
    (hinit : e.initialized = true) (hbyp : e.params.bypass = false)
    (hmax : 0 ≤ e.maxBlockSize) :
    ReverbEngine.processBlock powf vH trig enh e [[]]
      = (ReverbEngine.paramPushState powf vH trig e, [[]]) ∧
    (ReverbEngine.paramPushState powf vH trig e).fdn.needsBufferFlush = false ∧
    (ReverbEngine.paramPushState powf vH trig e = e →
      ReverbEngine.processBlock powf vH trig enh e [[]] = (e, [[]])) := by
  refine ⟨processBlock_zero_mono powf vH trig enh e hinit hbyp hmax,
    checkAndFlush_flag_false _, ?_⟩
  intro hfix
  rw [processBlock_zero_mono powf vH trig enh e hinit hbyp hmax, hfix]

/-- Closed witness for C8 (amended), at the freshly initialised engine. -/
theorem claim_C8_witness :
    ReverbEngine.processBlock powfDummy vUnit trigDummy id engInit [[]]
      = (ReverbEngine.paramPushState powfDummy vUnit trigDummy engInit, [[]]) ∧
    (ReverbEngine.paramPushState powfDummy vUnit trigDummy engInit).fdn.needsBufferFlush
      = false :=
  ⟨(claim_C8 powfDummy vUnit trigDummy id engInit rfl rfl (by decide)).1,
   (claim_C8 powfDummy vUnit trigDummy id engInit rfl rfl (by decide)).2.1⟩

/-! ## C4 — stereo wet mix weights and output normalisation -/

/-- The damped signal of line `j` as computed inside one sample of the
stereo FDN loop (the damping filter applied to the feedback-matrix output of
the front half). -/
def stereoDamped (fdn : FDNReverb) (inL : ℚ) (j : Fin 8) : ℚ :=
  FDNReverb.dampedSignal (FDNReverb.frontHalf fdn inL).1
    (FDNReverb.frontHalf fdn inL).2.2.2 j

/-- Channel weight of line `j` for the left accumulator. -/
def leftWeight (j : Fin 8) : ℚ := if (j : ℕ) % 2 = 0 then 7 / 10 else 3 / 10

/-- Channel weight of line `j` for the right accumulator. -/
def rightWeight (j : Fin 8) : ℚ := if (j : ℕ) % 2 = 0 then 3 / 10 else 7 / 10

/-- The stereo line loop accumulates exactly the per-line damped signals,
weighted per channel; the damping/delay state updates along the way do not
disturb the lines not yet visited. -/
lemma stereoFold_acc (diffused : ℚ) (m : Fin 8 → ℚ) :
    ∀ (js : List (Fin 8)), js.Nodup → ∀ (fdn : FDNReverb) (aL aR : ℚ),
      (js.foldl (FDNReverb.stereoLineStep diffused m) (fdn, aL, aR)).2.1
          = aL + (js.map fun j => FDNReverb.dampedSignal fdn m j * leftWeight j).sum ∧
      (js.foldl (FDNReverb.stereoLineStep diffused m) (fdn, aL, aR)).2.2
          = aR + (js.map fun j => FDNReverb.dampedSignal fdn m j * rightWeight j).sum := by
  intro js
  induction js with
  | nil => intro _ fdn aL aR; simp
  | cons j js ih =>
    intro hnd fdn aL aR
    obtain ⟨hjmem, hndjs⟩ := List.nodup_cons.mp hnd
    rw [List.foldl_cons]
    have hfdn1 : ∀ j' ∈ js,
        FDNReverb.dampedSignal
          (FDNReverb.stereoLineStep diffused m (fdn, aL, aR) j).1 m j'
        = FDNReverb.dampedSignal fdn m j' := by
      intro j' hj'
      have hne : j' ≠ j := fun h => hjmem (h ▸ hj')
      simp only [FDNReverb.dampedSignal, FDNReverb.stereoLineStep]
      rw [Function.update_noteq hne]
    obtain ⟨ihL, ihR⟩ := ih hndjs (FDNReverb.stereoLineStep diffused m (fdn, aL, aR) j).1
      (FDNReverb.stereoLineStep diffused m (fdn, aL, aR) j).2.1
      (FDNReverb.stereoLineStep diffused m (fdn, aL, aR) j).2.2
    constructor
    · rw [ihL, List.map_congr_left fun j' hj' => by rw [hfdn1 j' hj']]
      show aL + FDNReverb.dampedSignal fdn m j * leftWeight j + _ = _
      rw [List.map_cons, List.sum_cons]
      ring
    · rw [ihR, List.map_congr_left fun j' hj' => by rw [hfdn1 j' hj']]
      show aR + FDNReverb.dampedSignal fdn m j * rightWeight j + _ = _
      rw [List.map_cons, List.sum_cons]
      ring

/-- Both stereo wet outputs are `0.3` times the weighted sums of the per-line
damped signals. -/
lemma stereoStep_wet (fdn : FDNReverb) (inL inR : ℚ) :
    (FDNReverb.stereoStep fdn inL inR).2.1
        = 3 / 10 * ∑ j, stereoDamped fdn inL j * leftWeight j ∧
    (FDNReverb.stereoStep fdn inL inR).2.2
        = 3 / 10 * ∑ j, stereoDamped fdn inL j * rightWeight j := by
  obtain ⟨hL, hR⟩ := stereoFold_acc (FDNReverb.frontHalf fdn inL).2.1
    (FDNReverb.frontHalf fdn inL).2.2.2 (List.finRange 8) (List.nodup_finRange 8)
    (FDNReverb.frontHalf fdn inL).1 0 0
  constructor
  · show (_ : ℚ) * (3 / 10) = _
    rw [hL, Fin.sum_univ_def]
    simp only [stereoDamped]
    ring
  · show (_ : ℚ) * (3 / 10) = _
    rw [hR, Fin.sum_univ_def]
    simp only [stereoDamped]
    ring

/-- C4 (amended): in the stereo FDN path the left and right wet outputs equal
`0.3` (not `0.25`) times the sums of the per-line damped signals, weighted
`0.7` for the emphasised channel and `0.3` for the other, with even-indexed
lines emphasising left and odd-indexed lines emphasising right. -/
theorem claim_C4 (fdn : FDNReverb) (inL inR : ℚ) :
    (FDNReverb.stereoStep fdn inL inR).2.1
        = 3 / 10 * ∑ j, stereoDamped fdn inL j *
            (if (j : ℕ) % 2 = 0 then 7 / 10 else 3 / 10) ∧
    (FDNReverb.stereoStep fdn inL inR).2.2
        = 3 / 10 * ∑ j, stereoDamped fdn inL j *
            (if (j : ℕ) % 2 = 0 then 3 / 10 else 7 / 10) :=
  stereoStep_wet fdn inL inR

/-- A delay line holding the sample `1` at the position its next read will
hit (`writeIndex = 3`, integer delay `2`, so the read lands on cell `1`). -/
def dlC4 : DelayLine :=
  { writes := [(1, 1)], writeIndex := 3, delay := 2, maxLength := 4 }

/-- A damping filter with both biquads at the identity setting (damping
percent `0`), exactly as the `DampingFilter` constructor leaves them. -/
def dampC4 : DampingFilter :=
  { hfFilter := BiquadFilter.init, lfFilter := BiquadFilter.init
    sampleRate := 48000, hfCutoffHz := 8000, lfCutoffHz := 200
    hfDampingPercent := 0, lfDampingPercent := 0 }

/-- A concrete FDN state for the C4 counterexample: unit samples sitting at
every line's read position, identity damping, a diagonal `½·I` feedback
matrix, and quiescent pre-processing chains, so the wet mix of this sample
is fully explicit. -/
def fdnC4 : FDNReverb :=
  { delayLines := fun _ => dlC4
    diffusionFilters := []
    dampingFilters := fun _ => dampC4
    modulatedDelays := fun _ => ModulatedDelay.init 4
    crossFeedProcessor := CrossFeedProcessor.init 48000
    stereoSpreadProcessor := StereoSpreadProcessor.init
    toneFilter := ToneFilter.init trigDummy 48000
    earlyReflectionFilters := []
    sampleRate := 48000
    useInterpolation := true
    lastRoomSize := 1 / 2
    needsBufferFlush := false
    decayTime := 2
    preDelay := 0
    roomSize := 1 / 2
    density := 7 / 10
    highFreqDamping := 0
    lowFreqDamping := 0
    feedbackMatrix := fun i j => if i = j then 1 / 2 else 0
    delayOutputs := fun _ => 0
    matrixOutputs := fun _ => 0
    preDelayLine := DelayLine.init 4 }

/-- Reading `dlC4` during the two-phase read pass yields the stored `1`. -/
lemma dlC4_read : (dlC4.process 0).2 = 1 := by
  show DelayLine.bufRead ((3, 0) :: [(1, 1)]) _ + _ = 1
  norm_num [DelayLine.process, DelayLine.bufRead, dlC4]

/-- The identity damping filter passes its input through. -/
lemma dampC4_id (x : ℚ) : (dampC4.process x).2 = x := by
  simp [dampC4, DampingFilter.process, BiquadFilter.process, BiquadFilter.init]

/-- Each per-line damped signal of the sample under test is `½`. -/
lemma stereoDamped_C4 (j : Fin 8) : stereoDamped fdnC4 0 j = 1 / 2 := by
  have hm : (FDNReverb.frontHalf fdnC4 0).2.2.2 j = 1 / 2 := by
    show matVec fdnC4.feedbackMatrix
      (fun k => ((fdnC4.delayLines k).process 0).2) j = 1 / 2
    unfold matVec
    rw [show (fun k : Fin 8 => ((fdnC4.delayLines k).process 0).2)
        = fun _ => (1 : ℚ) from funext fun k => dlC4_read]
    simp [fdnC4, Finset.sum_ite_eq]
  calc stereoDamped fdnC4 0 j
      = (dampC4.process ((FDNReverb.frontHalf fdnC4 0).2.2.2 j)).2 := rfl
    _ = (FDNReverb.frontHalf fdnC4 0).2.2.2 j := dampC4_id _
    _ = 1 / 2 := hm

/-- Counterexample to C4 as stated: at this explicit state and input the left
wet output is `0.3·2 = 0.6`, not the claimed `0.25·2 = 0.5` — the source
scales the stereo wet mix by `reverbGain = 0.3f` (`FDNReverb.cpp`
line 463), not `0.25`. -/
theorem claim_C4_counterexample :
    (FDNReverb.stereoStep fdnC4 0 0).2.1
      ≠ 1 / 4 * ∑ j, stereoDamped fdnC4 0 j *
          (if (j : ℕ) % 2 = 0 then 7 / 10 else 3 / 10) := by
  rw [(stereoStep_wet fdnC4 0 0).1]
  have hsum : ∑ j, stereoDamped fdnC4 0 j * leftWeight j = 2 := by
    rw [Finset.sum_congr rfl fun j _ => by rw [stereoDamped_C4 j]]
    simp +decide [leftWeight, Fin.sum_univ_eight]
    norm_num
  rw [show (∑ j, stereoDamped fdnC4 0 j *
      (if (j : ℕ) % 2 = 0 then 7 / 10 else 3 / 10))
      = ∑ j, stereoDamped fdnC4 0 j * leftWeight j from rfl, hsum]
  norm_num

end VoiceMonitor
